import Mathlib

/-!
Verification development for the multi-format log parsing engine of
`log_processor.py` (repository AILogMonitoringApp2).

The Python source is shallowly embedded: each Python function of the parsing
core (`LOG_FORMATS`, `detect_log_format`, `process_standard_log`,
`process_apache_log`, `process_json_log`, `process_syslog`,
`parse_log_entry`, `process_logs`) becomes an executable Lean definition.
Python regular expressions are embedded through a small backtracking
matcher (leftmost, greedy, first-success — the semantics of CPython's `re`
engine restricted to the constructs the source patterns use), and
`datetime.strptime` is embedded following the directive-by-directive
regexes of CPython's `_strptime` module.  The ambient clock
(`datetime.now()`) is made an explicit parameter, and file reading in
`process_logs` is modelled by passing the file's text directly.
Character classes are modelled over the ASCII range the log data uses, and
Python `float` values are modelled exactly as rationals.
-/

namespace LogProc

/-- Python whitespace (`str.strip`, regex `\s`), ASCII range. -/
def isPySpace (c : Char) : Bool :=
  c = ' ' || c = '\t' || c = '\n' || c = '\r' || c = '\x0b' || c = '\x0c'

/-- Python `str.strip()` with no argument. -/
def pyStrip (s : String) : String :=
  String.mk (((s.toList.dropWhile isPySpace).reverse.dropWhile isPySpace).reverse)

/-- Python `needle in hay` on strings (substring containment). -/
def strContains (hay needle : String) : Bool :=
  let n := needle.toList
  let rec go : List Char → Bool
    | [] => n.isPrefixOf []
    | c :: rest => n.isPrefixOf (c :: rest) || go rest
  go hay.toList

/-- Python `str.upper()` (ASCII range). -/
def pyUpper (s : String) : String := String.mk (s.toList.map Char.toUpper)

/-- Python `str.lower()` (ASCII range). -/
def pyLower (s : String) : String := String.mk (s.toList.map Char.toLower)

/-- Python slicing `s[:n]`. -/
def pySlice (s : String) (n : Nat) : String := String.mk (s.toList.take n)

/-- Python `s.split(sep)` for a one-character separator (`"".split(sep)`
is `[""]`). -/
def splitOnChar (sep : Char) (s : String) : List String :=
  let rec go : List Char → List Char → List String
    | [], cur => [String.mk cur.reverse]
    | c :: rest, cur =>
      if c = sep then String.mk cur.reverse :: go rest [] else go rest (c :: cur)
  go s.toList []

/-- Python `s.startswith(p)`. -/
def pyStartsWith (s p : String) : Bool := p.toList.isPrefixOf s.toList

/-- Zero-padded decimal rendering. -/
def padNum (width n : Nat) : String :=
  let digits := toString n
  String.mk (List.replicate (width - digits.length) '0') ++ digits

/-- Gregorian leap year. -/
def isLeapYear (y : Nat) : Bool :=
  y % 4 = 0 && (y % 100 ≠ 0 || y % 400 = 0)

/-- Days in a month of the proleptic Gregorian calendar. -/
def daysInMonth (y m : Nat) : Nat :=
  if m = 2 then (if isLeapYear y then 29 else 28)
  else if m = 4 || m = 6 || m = 9 || m = 11 then 30
  else 31

/-- Days since 1970-01-01 of a civil date (Gregorian, year ≥ 1). -/
def daysFromCivil (y m d : Nat) : Int :=
  let ys : Nat := if m ≤ 2 then y - 1 else y
  let era : Nat := ys / 400
  let yoe : Nat := ys % 400
  let mOff : Nat := if m > 2 then m - 3 else m + 9
  let doy : Nat := (153 * mOff + 2) / 5 + (d - 1)
  let doe : Nat := yoe * 365 + yoe / 4 - yoe / 100 + doy
  (era : Int) * 146097 + (doe : Int) - 719468

/-- Embedding of a Python `datetime.datetime` value.  `tzOffsetMinutes` is
`none` for a naive datetime and `some k` for an aware one with a fixed
UTC offset of `k` minutes. -/
structure PyDateTime where
  year : Nat
  month : Nat
  day : Nat
  hour : Nat
  minute : Nat
  second : Nat
  microsecond : Nat
  tzOffsetMinutes : Option Int
deriving Repr, DecidableEq

/-- The `datetime(...)` constructor's range validation (raises `ValueError`
outside these ranges).  Offsets must be strictly inside a day, as
`datetime.timezone` requires. -/
def mkPyDateTime (y mo d h mi s us : Nat) (tz : Option Int) : Option PyDateTime :=
  if (1 ≤ y && y ≤ 9999 && 1 ≤ mo && mo ≤ 12 && 1 ≤ d && d ≤ daysInMonth y mo &&
      h ≤ 23 && mi ≤ 59 && s ≤ 59 && us ≤ 999999 &&
      (match tz with | none => true | some k => -1440 < k && k < 1440)) then
    some ⟨y, mo, d, h, mi, s, us, tz⟩
  else
    none

/-- Embeds `datetime.isoformat()`. -/
def PyDateTime.isoformat (t : PyDateTime) : String :=
  padNum 4 t.year ++ "-" ++ padNum 2 t.month ++ "-" ++ padNum 2 t.day ++ "T" ++
  padNum 2 t.hour ++ ":" ++ padNum 2 t.minute ++ ":" ++ padNum 2 t.second ++
  (if t.microsecond = 0 then "" else "." ++ padNum 6 t.microsecond) ++
  (match t.tzOffsetMinutes with
   | none => ""
   | some k =>
     (if k < 0 then "-" else "+") ++
     padNum 2 (Int.toNat (if k < 0 then -k else k) / 60) ++ ":" ++
     padNum 2 (Int.toNat (if k < 0 then -k else k) % 60))

/-- Embeds `datetime.timestamp()`: seconds since the epoch, as an exact rational
(Python returns a float).  A naive datetime is interpreted by Python in the
process's local timezone; the ambient local timezone is modelled as UTC. -/
def PyDateTime.timestampQ (t : PyDateTime) : ℚ :=
  ((daysFromCivil t.year t.month t.day * 86400
      + (t.hour : Int) * 3600 + (t.minute : Int) * 60 + (t.second : Int)
      - 60 * (t.tzOffsetMinutes.getD 0) : Int) : ℚ)
  + (t.microsecond : ℚ) / 1000000

/-- Embeds `datetime` comparison (`a > b`) between naive datetimes: field-wise
lexicographic, as in CPython. -/
def PyDateTime.fieldList (a : PyDateTime) : List Nat :=
  [a.year, a.month, a.day, a.hour, a.minute, a.second, a.microsecond]

/-- Embeds `datetime` comparison (`a > b`) between naive datetimes: field-wise
lexicographic, as in CPython. -/
def PyDateTime.gtDT (a b : PyDateTime) : Bool :=
  let rec go : List Nat → List Nat → Bool
    | x :: xs, y :: ys => if x > y then true else if x < y then false else go xs ys
    | _, _ => false
  go a.fieldList b.fieldList

/-- Embeds `strftime("%B")`: full month name (C locale). -/
def monthFullName (m : Nat) : String :=
  match m with
  | 1 => "January" | 2 => "February" | 3 => "March" | 4 => "April"
  | 5 => "May" | 6 => "June" | 7 => "July" | 8 => "August"
  | 9 => "September" | 10 => "October" | 11 => "November" | 12 => "December"
  | _ => ""

/-- Abbreviated month names (C locale), for the `%b` directive, 1-based. -/
def monthAbbrevs : List String :=
  ["Jan", "Feb", "Mar", "Apr", "May", "Jun",
   "Jul", "Aug", "Sep", "Oct", "Nov", "Dec"]

/-! ## A backtracking regular-expression engine

CPython's `re` engine restricted to the constructs appearing in
`LOG_FORMATS` and `_strptime`: character classes, literals, concatenation,
prioritized alternation, greedy `?`/`*`/`+`/`{n}`, named capturing groups,
and zero-width lookahead (positive and negative).  Patterns are a small
AST interpreted by a depth-first backtracking machine with an explicit
continuation list; alternatives are tried in the engine's priority order
(left branch first, greedy repetition longest first) and the first full
success wins — exactly the leftmost/greedy/backtracking semantics of
`re`.  The `starLoop`/`capEnd` constructors are internal markers the
machine pushes onto its continuation; source patterns never contain
them. -/

inductive Rx where
  /-- One character satisfying a predicate (character class / literal). -/
  | cls (p : Char → Bool) : Rx
  /-- The empty pattern. -/
  | eps : Rx
  /-- A pattern that never matches (base of an alternation list). -/
  | fail : Rx
  /-- Concatenation. -/
  | seq (a b : Rx) : Rx
  /-- Prioritized alternation (left branch preferred). -/
  | alt (a b : Rx) : Rx
  /-- Greedy `*`. -/
  | star (a : Rx) : Rx
  /-- Named capturing group. -/
  | cap (name : String) (a : Rx) : Rx
  /-- Zero-width positive lookahead `(?=a)`. -/
  | look (a : Rx) : Rx
  /-- Zero-width negative lookahead `(?!a)`. -/
  | neg (a : Rx) : Rx
  /-- Anchor `$` in `MULTILINE` mode. -/
  | dollarM : Rx
  /-- Internal: loop point of a greedy star, with the iteration's start
  offset (a repeated empty match stops the loop, as in CPython). -/
  | starLoop (a : Rx) (startPos : Nat) : Rx
  /-- Internal: close a capturing group opened at `startPos`. -/
  | capEnd (name : String) (startPos : Nat) : Rx

/-- Structural size of a pattern, used to budget the interpreter's
fuel. -/
def rxSize : Rx → Nat
  | .cls _ => 1
  | .eps => 1
  | .fail => 1
  | .seq a b => rxSize a + rxSize b + 1
  | .alt a b => rxSize a + rxSize b + 1
  | .star a => rxSize a + 1
  | .cap _ a => rxSize a + 1
  | .look a => rxSize a + 1
  | .neg a => rxSize a + 1
  | .dollarM => 1
  | .starLoop a _ => rxSize a + 1
  | .capEnd _ _ => 1

/-- Engine state: current input offset, the rest of the input from that
offset, and the captured groups (a group's text is prepended when the
group closes; group names are unique per pattern). -/
structure RState where
  pos : Nat
  rem : List Char
  caps : List (String × String)
deriving Repr, DecidableEq

/-- The backtracking machine: match the continuation list `k` (patterns
still to match, in order) against the input, depth-first with the
priority order of `re`.  `full` is the whole input (for extracting group
text); fuel bounds the recursion depth and is chosen generously by the
entry points below. -/
def runRx (full : List Char) : Nat → List Rx → RState → Option RState
  | 0, _, _ => none
  | _ + 1, [], st => some st
  | fuel + 1, r :: k, st =>
    match r with
    | .fail => none
    | .eps => runRx full fuel k st
    | .cls p =>
      match st.rem with
      | c :: rest =>
        if p c then runRx full fuel k ⟨st.pos + 1, rest, st.caps⟩ else none
      | [] => none
    | .seq a b => runRx full fuel (a :: b :: k) st
    | .alt a b =>
      (runRx full fuel (a :: k) st).orElse (fun _ => runRx full fuel (b :: k) st)
    | .star a =>
      (runRx full fuel (a :: .starLoop a st.pos :: k) st).orElse
        (fun _ => runRx full fuel k st)
    | .starLoop a p =>
      if st.pos > p then
        (runRx full fuel (a :: .starLoop a st.pos :: k) st).orElse
          (fun _ => runRx full fuel k st)
      else runRx full fuel k st
    | .cap name a => runRx full fuel (a :: .capEnd name st.pos :: k) st
    | .capEnd name start =>
      runRx full fuel k
        ⟨st.pos, st.rem,
         (name, String.mk ((full.drop start).take (st.pos - start))) :: st.caps⟩
    | .look a =>
      match runRx full fuel [a] st with
      | some _ => runRx full fuel k st
      | none => none
    | .neg a =>
      match runRx full fuel [a] st with
      | some _ => none
      | none => runRx full fuel k st
    | .dollarM =>
      match st.rem with
      | [] => runRx full fuel k st
      | c :: _ => if c = '\n' then runRx full fuel k st else none

/-- Fuel budget: comfortably above the length of any search path of the
embedded patterns (steps per consumed character are bounded by the
pattern size). -/
def rxFuel (r : Rx) (n : Nat) : Nat :=
  (rxSize r + 4) * (n + 4) * 16

/-- Run a pattern at an offset of the input. -/
def runRxAt (m : Rx) (s : List Char) (i : Nat) : Option RState :=
  runRx s (rxFuel m s.length) [m] ⟨i, s.drop i, []⟩

/-- Python `pattern.match(text)`: anchored at offset 0, returns the
priority-first match (not required to reach the end of the input). -/
def reMatch (m : Rx) (text : String) : Option RState :=
  runRxAt m text.toList 0

/-- Does the pattern match starting at offset `i` of the input? -/
def matchesAt (m : Rx) (s : List Char) (i : Nat) : Bool :=
  (runRxAt m s i).isSome

/-- Embeds `match.group(name)` / `match.groupdict()[name]`: `some` text when the
group participated in the match, `none` (Python `None`) otherwise. -/
def capGet (st : RState) (name : String) : Option String :=
  st.caps.lookup name

/-! Smart constructors mirroring the regex syntax. -/

/-- Match one character satisfying a predicate. -/
def mcls (p : Char → Bool) : Rx := .cls p

/-- Match one literal character. -/
def mlit (c : Char) : Rx := mcls (· = c)

/-- Match one literal character case-insensitively (ASCII), as regexes
compiled with `re.IGNORECASE` do (CPython's `_strptime` compiles the whole
format pattern with `IGNORECASE`). -/
def mlitCI (c : Char) : Rx := mcls (fun d => d.toLower = c.toLower)

/-- The empty matcher. -/
def meps : Rx := .eps

/-- Concatenation. -/
def mseq (a b : Rx) : Rx := .seq a b

/-- Concatenation of a list of patterns. -/
def mseqL (l : List Rx) : Rx := l.foldr mseq meps

/-- Prioritized alternation (left branch preferred). -/
def malt (a b : Rx) : Rx := .alt a b

/-- Prioritized alternation over a list. -/
def maltL (l : List Rx) : Rx := l.foldr malt .fail

/-- Greedy `?`. -/
def mopt (a : Rx) : Rx := malt a meps

/-- Greedy `*`. -/
def mstar (a : Rx) : Rx := .star a

/-- Greedy `+`. -/
def mplus (a : Rx) : Rx := mseq a (mstar a)

/-- Exactly `n` repetitions. -/
def mrep : Nat → Rx → Rx
  | 0, _ => meps
  | n + 1, a => mseq a (mrep n a)

/-- A literal string. -/
def mstrLit (lit : String) : Rx := mseqL (lit.toList.map mlit)

/-- A literal string matched case-insensitively. -/
def mstrLitCI (lit : String) : Rx := mseqL (lit.toList.map mlitCI)

/-- Named capturing group. -/
def mcap (name : String) (a : Rx) : Rx := .cap name a

/-- Zero-width positive lookahead `(?=a)`. -/
def mlook (a : Rx) : Rx := .look a

/-- Zero-width negative lookahead `(?!a)`. -/
def mneg (a : Rx) : Rx := .neg a

/-- Regex `\d` (ASCII). -/
def mdigit : Rx := mcls Char.isDigit

/-- Regex `\s` (ASCII range). -/
def mspace : Rx := mcls isPySpace

/-- Regex `\S`. -/
def mnonspace : Rx := mcls (fun c => !isPySpace c)

/-- Regex `\w` (ASCII range). -/
def mword : Rx := mcls (fun c => c.isAlphanum || c = '_')

/-- Regex `.` without `DOTALL`: any character except a newline. -/
def mdot : Rx := mcls (· ≠ '\n')

/-- Regex `$` in `MULTILINE` mode: end of input or just before a
newline. -/
def mdollar : Rx := .dollarM

/-! ## Python values and JSON

`json.loads` maps JSON values onto Python objects (`None`, `bool`, `int`,
`float`, `str`, `list`, `dict`); the same type also serves as the value
type of the metadata dictionaries the processors build (every value they
store is such an object — floats are modelled exactly as rationals, and
the IEEE-754 rounding of decimal literals is not modelled).  CPython's
`json` additionally accepts the special floats `NaN`, `Infinity` and
`-Infinity`, represented here by a dedicated constructor. -/

inductive JValue where
  | null : JValue
  | jbool : Bool → JValue
  | jint : Int → JValue
  | jfloat : ℚ → JValue
  | jspecial : String → JValue
  | jstr : String → JValue
  | jarr : List JValue → JValue
  | jobj : List (String × JValue) → JValue
deriving Repr

/-- Python truthiness of a value. -/
def JValue.truthy : JValue → Bool
  | .null => false
  | .jbool b => b
  | .jint n => n ≠ 0
  | .jfloat q => q ≠ 0
  | .jspecial _ => true
  | .jstr s => s ≠ ""
  | .jarr l => !l.isEmpty
  | .jobj l => !l.isEmpty

/-- Python `dict` lookup (`d[k]` / membership); the association lists are
kept with unique keys in insertion order, as built by `dictInsert`. -/
def dictGet (d : List (String × JValue)) (key : String) : Option JValue :=
  match d with
  | [] => none
  | (k, v) :: rest => if key = k then some v else dictGet rest key

/-- Python `d.get(key, default)`. -/
def pyGet (d : List (String × JValue)) (key : String) (dflt : JValue) : JValue :=
  (dictGet d key).getD dflt

/-- Python `key in d`. -/
def dictHas (d : List (String × JValue)) (key : String) : Bool :=
  (dictGet d key).isSome

/-- Python `dict` insertion: an existing key keeps its position and gets
the new value; a new key is appended. -/
def dictInsert (d : List (String × JValue)) (key : String) (v : JValue) :
    List (String × JValue) :=
  match d with
  | [] => [(key, v)]
  | (k, w) :: rest =>
    if key = k then (k, v) :: rest else (k, w) :: dictInsert rest key v

/-- JSON inter-token whitespace (`json.decoder` skips exactly these). -/
def jsonSkipWs (cs : List Char) : List Char :=
  cs.dropWhile (fun c => c = ' ' || c = '\t' || c = '\n' || c = '\r')

/-- One hexadecimal digit. -/
def hexVal (c : Char) : Option Nat :=
  if c.isDigit then some (c.toNat - '0'.toNat)
  else if 'a' ≤ c ∧ c ≤ 'f' then some (c.toNat - 'a'.toNat + 10)
  else if 'A' ≤ c ∧ c ≤ 'F' then some (c.toNat - 'A'.toNat + 10)
  else none

/-- Embeds `\uXXXX`: four hex digits. -/
def hex4 (cs : List Char) : Option (Nat × List Char) :=
  match cs with
  | a :: b :: c :: d :: rest =>
    match hexVal a, hexVal b, hexVal c, hexVal d with
    | some x, some y, some z, some w => some (((x * 16 + y) * 16 + z) * 16 + w, rest)
    | _, _, _, _ => none
  | _ => none

/-- JSON string body (after the opening quote), strict mode: raw control
characters are rejected; escape sequences as in `json.decoder`.  Lone
UTF-16 surrogates (which CPython keeps in its `str`) are not representable
in Lean's `Char` and are rejected; the embedded log data contains none. -/
def parseJStr : Nat → List Char → Option (List Char × List Char)
  | 0, _ => none
  | fuel + 1, cs =>
    match cs with
    | [] => none
    | '"' :: rest => some ([], rest)
    | '\\' :: e :: rest =>
      let simple : Option (Char × List Char) :=
        match e with
        | '"' => some ('"', rest)
        | '\\' => some ('\\', rest)
        | '/' => some ('/', rest)
        | 'b' => some ('\x08', rest)
        | 'f' => some ('\x0c', rest)
        | 'n' => some ('\n', rest)
        | 'r' => some ('\r', rest)
        | 't' => some ('\t', rest)
        | _ => none
      match simple with
      | some (c, rest') =>
        (parseJStr fuel rest').map (fun (body, rem) => (c :: body, rem))
      | none =>
        if e = 'u' then
          match hex4 rest with
          | none => none
          | some (n, rest') =>
            if 0xD800 ≤ n ∧ n ≤ 0xDBFF then
              match rest' with
              | '\\' :: 'u' :: rest'' =>
                match hex4 rest'' with
                | some (n2, rest3) =>
                  if 0xDC00 ≤ n2 ∧ n2 ≤ 0xDFFF then
                    let code := 0x10000 + (n - 0xD800) * 0x400 + (n2 - 0xDC00)
                    (parseJStr fuel rest3).map
                      (fun (body, rem) => (Char.ofNat code :: body, rem))
                  else none
                | none => none
              | _ => none
            else if 0xDC00 ≤ n ∧ n ≤ 0xDFFF then none
            else
              (parseJStr fuel rest').map
                (fun (body, rem) => (Char.ofNat n :: body, rem))
        else none
    | c :: rest =>
      if c.toNat < 32 then none
      else (parseJStr fuel rest).map (fun (body, rem) => (c :: body, rem))

/-- Decimal value of a digit list (the list is known to be all digits). -/
def digitsToNat (ds : List Char) : Nat :=
  ds.foldl (fun acc c => acc * 10 + (c.toNat - '0'.toNat)) 0

/-- Python `int(s)` on a plain digit string. -/
def strToNat? (s : String) : Option Nat :=
  if !s.toList.isEmpty && s.toList.all Char.isDigit then
    some (digitsToNat s.toList)
  else none

/-- JSON number: `-?(0|[1-9][0-9]*)(\.[0-9]+)?([eE][+-]?[0-9]+)?`.
An integer literal becomes a Python `int`; a literal with a fraction or
exponent becomes a `float` (modelled as the exact decimal rational). -/
def parseJNum (cs : List Char) : Option (JValue × List Char) :=
  let (neg, cs1) := match cs with
    | '-' :: rest => (true, rest)
    | _ => (false, cs)
  let intDigits := cs1.takeWhile Char.isDigit
  let afterInt := cs1.drop intDigits.length
  if intDigits.isEmpty then none
  else if intDigits.length > 1 ∧ intDigits.headD '0' = '0' then none
  else
    let (fracDigits, afterFrac) :=
      match afterInt with
      | '.' :: rest =>
        let fd := rest.takeWhile Char.isDigit
        (some fd, rest.drop fd.length)
      | _ => (none, afterInt)
    match fracDigits with
    | some [] => none
    | _ =>
      let (expPart, afterExp) :=
        match afterFrac with
        | e :: rest =>
          if e = 'e' ∨ e = 'E' then
            let (esign, rest1) := match rest with
              | '+' :: r => ((1 : Int), r)
              | '-' :: r => ((-1 : Int), r)
              | _ => ((1 : Int), rest)
            let ed := rest1.takeWhile Char.isDigit
            if ed.isEmpty then (none, afterFrac)
            else (some (esign * (digitsToNat ed : Int)), rest1.drop ed.length)
          else (none, afterFrac)
        | [] => (none, afterFrac)
      let sign : Int := if neg then -1 else 1
      match fracDigits, expPart with
      | none, none => some (.jint (sign * (digitsToNat intDigits : Int)), afterExp)
      | _, _ =>
        let fd := fracDigits.getD []
        let mantissa : ℚ :=
          (digitsToNat intDigits : ℚ) + (digitsToNat fd : ℚ) / (10 : ℚ) ^ fd.length
        let e : Int := expPart.getD 0
        some (.jfloat ((sign : ℚ) * mantissa * (10 : ℚ) ^ e), afterExp)

mutual

/-- JSON value (recursive descent; fuel bounds the recursion depth, every
level of which consumes at least one character). -/
def jparseVal : Nat → List Char → Option (JValue × List Char)
  | 0, _ => none
  | fuel + 1, cs0 =>
    let cs := jsonSkipWs cs0
    match cs with
    | 't' :: 'r' :: 'u' :: 'e' :: rest => some (.jbool true, rest)
    | 'f' :: 'a' :: 'l' :: 's' :: 'e' :: rest => some (.jbool false, rest)
    | 'n' :: 'u' :: 'l' :: 'l' :: rest => some (.null, rest)
    | 'N' :: 'a' :: 'N' :: rest => some (.jspecial "nan", rest)
    | 'I' :: 'n' :: 'f' :: 'i' :: 'n' :: 'i' :: 't' :: 'y' :: rest =>
      some (.jspecial "inf", rest)
    | '-' :: 'I' :: 'n' :: 'f' :: 'i' :: 'n' :: 'i' :: 't' :: 'y' :: rest =>
      some (.jspecial "-inf", rest)
    | '"' :: rest =>
      (parseJStr (rest.length + 1) rest).map
        (fun (body, rem) => (.jstr (String.mk body), rem))
    | '[' :: rest =>
      let rest1 := jsonSkipWs rest
      match rest1 with
      | ']' :: rem => some (.jarr [], rem)
      | _ =>
        (jparseElems fuel rest1).map (fun (l, rem) => (.jarr l, rem))
    | '\x7b' :: rest =>
      let rest1 := jsonSkipWs rest
      match rest1 with
      | '\x7d' :: rem => some (.jobj [], rem)
      | _ =>
        (jparseMembers fuel [] rest1).map (fun (d, rem) => (.jobj d, rem))
    | _ => parseJNum cs

/-- Comma-separated array elements followed by `]`. -/
def jparseElems : Nat → List Char → Option (List JValue × List Char)
  | 0, _ => none
  | fuel + 1, cs =>
    match jparseVal fuel cs with
    | none => none
    | some (v, rest) =>
      match jsonSkipWs rest with
      | ',' :: rest1 =>
        (jparseElems fuel rest1).map (fun (l, rem) => (v :: l, rem))
      | ']' :: rest1 => some ([v], rest1)
      | _ => none

/-- Comma-separated object members followed by `}` (duplicate keys behave
like repeated `dict` assignment). -/
def jparseMembers : Nat → List (String × JValue) → List Char →
    Option (List (String × JValue) × List Char)
  | 0, _, _ => none
  | fuel + 1, acc, cs =>
    match jsonSkipWs cs with
    | '"' :: rest =>
      match parseJStr (rest.length + 1) rest with
      | none => none
      | some (keyBody, rest1) =>
        match jsonSkipWs rest1 with
        | ':' :: rest2 =>
          match jparseVal fuel rest2 with
          | none => none
          | some (v, rest3) =>
            let acc' := dictInsert acc (String.mk keyBody) v
            match jsonSkipWs rest3 with
            | ',' :: rest4 => jparseMembers fuel acc' rest4
            | '\x7d' :: rest4 => some (acc', rest4)
            | _ => none
        | _ => none
    | _ => none

end

/-- Embeds `json.loads`: parse a complete JSON document, allowing surrounding
whitespace and rejecting trailing data. -/
def jsonLoads (s : String) : Option JValue :=
  let cs := s.toList
  match jparseVal (cs.length + 1) cs with
  | none => none
  | some (v, rest) => if (jsonSkipWs rest).isEmpty then some v else none

/-! ## `datetime.strptime`

CPython's `_strptime` compiles a format string into one regex (with
`IGNORECASE`): every run of whitespace in the format becomes `\s+`, other
literal characters match themselves (case-insensitively), and each `%X`
directive becomes the regex below.  The whole input must be consumed
("unconverted data remains" otherwise), and the extracted fields are then
passed to the `datetime` constructor, whose range checks can still fail
(e.g. day 31 in a 30-day month, or second 61 from the leap-second
alternative of `%S`). -/

/-- One character in an inclusive ASCII range. -/
def dRange (lo hi : Char) : Rx := mcls (fun c => lo ≤ c && c ≤ hi)

/-- Directive `%Y`: `\d\d\d\d`. -/
def dirY : Rx := mcap "Y" (mrep 4 mdigit)

/-- Directive `%m`: `1[0-2]|0[1-9]|[1-9]`. -/
def dirm : Rx := mcap "m" (maltL
  [mseq (mlit '1') (dRange '0' '2'), mseq (mlit '0') (dRange '1' '9'), dRange '1' '9'])

/-- Directive `%d`: `3[0-1]|[1-2]\d|0[1-9]|[1-9]| [1-9]`. -/
def dird : Rx := mcap "d" (maltL
  [mseq (mlit '3') (dRange '0' '1'), mseq (dRange '1' '2') mdigit,
   mseq (mlit '0') (dRange '1' '9'), dRange '1' '9',
   mseq (mlit ' ') (dRange '1' '9')])

/-- Directive `%H`: `2[0-3]|[0-1]\d|\d`. -/
def dirH : Rx := mcap "H" (maltL
  [mseq (mlit '2') (dRange '0' '3'), mseq (dRange '0' '1') mdigit, mdigit])

/-- Directive `%M`: `[0-5]\d|\d`. -/
def dirMin : Rx := mcap "M" (malt (mseq (dRange '0' '5') mdigit) mdigit)

/-- Directive `%S`: `6[0-1]|[0-5]\d|\d`. -/
def dirS : Rx := mcap "S" (maltL
  [mseq (mlit '6') (dRange '0' '1'), mseq (dRange '0' '5') mdigit, mdigit])

/-- Directive `%f`: `[0-9]{1,6}`, greedy. -/
def dirf : Rx := mcap "f" (maltL
  ((List.range 6).map (fun k => mrep (6 - k) mdigit)))

/-- Directive `%b`: alternation of the locale's abbreviated month names,
case-insensitive. -/
def dirb : Rx := mcap "b" (maltL (monthAbbrevs.map mstrLitCI))

/-- Directive `%z`: `[+-]\d\d:?[0-5]\d(:?[0-5]\d(\.\d{1,6})?)?|(?-i:Z)`. -/
def dirz : Rx := mcap "z" (malt
  (mseqL [mcls (fun c => c = '+' || c = '-'), mdigit, mdigit, mopt (mlit ':'),
          dRange '0' '5', mdigit,
          mopt (mseqL [mopt (mlit ':'), dRange '0' '5', mdigit,
                       mopt (mseq (mlit '.') dirfBody)])])
  (mcls (· = 'Z')))
where
  /-- Embeds `\.\d{1,6}`'s digit part, greedy. -/
  dirfBody : Rx := maltL ((List.range 6).map (fun k => mrep (6 - k) mdigit))

/-- Whitespace in a format string: `\s+`. -/
def dirWs : Rx := mplus mspace

/-- Month number from an abbreviated name (case-insensitive). -/
def monthFromAbbrev (b : String) : Nat :=
  (monthAbbrevs.enum.find? (fun p => pyLower p.2 = pyLower b)).map (·.1 + 1) |>.getD 1

/-- UTC offset in minutes from a `%z` capture, with the whole-minutes and
strictly-below-24-hours requirements of `datetime.timezone`. -/
def zToOffsetMinutes (z : String) : Option Int :=
  if z = "Z" then some 0
  else
    match z.toList with
    | sign :: rest =>
      let ds := rest.filter (· ≠ ':')
      let hh := digitsToNat (ds.take 2)
      let mm := digitsToNat ((ds.drop 2).take 2)
      let rest2 := ds.drop 4
      let ss := if rest2.isEmpty then 0
        else digitsToNat (rest2.take 2)
      let fracDs := (rest2.drop 2).filter (· ≠ '.')
      let totalSeconds := hh * 3600 + mm * 60 + ss
      if totalSeconds % 60 = 0 ∧ fracDs.all (· = '0') ∧ totalSeconds < 86400 then
        some ((if sign = '-' then -1 else 1) * (totalSeconds / 60 : Nat))
      else none
    | [] => none

/-- Run a compiled strptime pattern on the whole input and build the
`datetime`, with CPython's defaults (year 1900, month 1, day 1) for
directives the format omits. -/
def runStrptime (fmtM : Rx) (s : String) : Option PyDateTime :=
  match reMatch fmtM s with
  | none => none
  | some st =>
    if st.pos ≠ s.toList.length then none
    else
      let num := fun (n : String) (dflt : Nat) =>
        ((capGet st n).bind (fun t => strToNat? (pyStrip t))).getD dflt
      let y := num "Y" 1900
      let mo := match capGet st "b" with
        | some b => monthFromAbbrev b
        | none => num "m" 1
      let d := num "d" 1
      let h := num "H" 0
      let mi := num "M" 0
      let sec := num "S" 0
      let us := match capGet st "f" with
        | some f => digitsToNat f.toList * 10 ^ (6 - f.length)
        | none => 0
      match capGet st "z" with
      | some z =>
        match zToOffsetMinutes z with
        | some off => mkPyDateTime y mo d h mi sec us (some off)
        | none => none
      | none => mkPyDateTime y mo d h mi sec us none

/-- Embeds `strptime(s, "%Y-%m-%d %H:%M:%S")` — the `standard` format's layout
(also the last fallback layout of the JSON processor). -/
def strptimeStd (s : String) : Option PyDateTime :=
  runStrptime (mseqL [dirY, mlitCI '-', dirm, mlitCI '-', dird, dirWs,
                      dirH, mlitCI ':', dirMin, mlitCI ':', dirS]) s

/-- Embeds `strptime(s, "%d/%b/%Y:%H:%M:%S %z")` — the `apache` layout. -/
def strptimeApache (s : String) : Option PyDateTime :=
  runStrptime (mseqL [dird, mlitCI '/', dirb, mlitCI '/', dirY, mlitCI ':',
                      dirH, mlitCI ':', dirMin, mlitCI ':', dirS, dirWs, dirz]) s

/-- Embeds `strptime(s, "%b %d %H:%M:%S %Y")` — the `syslog` layout with the
year appended by `process_syslog`. -/
def strptimeSyslog (s : String) : Option PyDateTime :=
  runStrptime (mseqL [dirb, dirWs, dird, dirWs,
                      dirH, mlitCI ':', dirMin, mlitCI ':', dirS, dirWs, dirY]) s

/-- Embeds `strptime(s, "%Y-%m-%dT%H:%M:%S.%fZ")`. -/
def strptimeIsoFracZ (s : String) : Option PyDateTime :=
  runStrptime (mseqL [dirY, mlitCI '-', dirm, mlitCI '-', dird, mlitCI 'T',
                      dirH, mlitCI ':', dirMin, mlitCI ':', dirS,
                      mlitCI '.', dirf, mlitCI 'Z']) s

/-- Embeds `strptime(s, "%Y-%m-%dT%H:%M:%SZ")`. -/
def strptimeIsoZ (s : String) : Option PyDateTime :=
  runStrptime (mseqL [dirY, mlitCI '-', dirm, mlitCI '-', dird, mlitCI 'T',
                      dirH, mlitCI ':', dirMin, mlitCI ':', dirS, mlitCI 'Z']) s

/-- Embeds `strptime(s, "%Y-%m-%d %H:%M:%S.%f")`. -/
def strptimeStdFrac (s : String) : Option PyDateTime :=
  runStrptime (mseqL [dirY, mlitCI '-', dirm, mlitCI '-', dird, dirWs,
                      dirH, mlitCI ':', dirMin, mlitCI ':', dirS,
                      mlitCI '.', dirf]) s

/-! ## The `LOG_FORMATS` registry

Each registered grammar's `regex` and `entry_split_pattern` fields are
embedded as matchers; the `timestamp_format` fields are the `strptime*`
functions above. -/

/-- Regex `[A-Z]`. -/
def mupper : Rx := dRange 'A' 'Z'

/-- Regex `[a-z]`. -/
def mlowerAZ : Rx := dRange 'a' 'z'

/-- Embeds `\d{4}-\d{2}-\d{2}`. -/
def dateShape : Rx :=
  mseqL [mrep 4 mdigit, mlit '-', mrep 2 mdigit, mlit '-', mrep 2 mdigit]

/-- Embeds `\d{2}:\d{2}:\d{2}`. -/
def timeShape : Rx :=
  mseqL [mrep 2 mdigit, mlit ':', mrep 2 mdigit, mlit ':', mrep 2 mdigit]

/-- Embeds `LOG_FORMATS["standard"]["regex"]`:
`^(?P<timestamp>\d{4}-\d{2}-\d{2}\s+\d{2}:\d{2}:\d{2})\s+`
`(?:\[(?P<level1>[A-Z]+)\]|(?P<level2>[A-Z]+))`
`(?:\s+\[(?P<component>[^\]]+)\])?`
`\s+(?P<message>[^\n]+)`
`(?P<exception>(?:\n\s+(?!\d{4}-\d{2}-\d{2}).*)*)`. -/
def standardRegex : Rx :=
  mseqL [
    mcap "timestamp" (mseqL [dateShape, mplus mspace, timeShape]),
    mplus mspace,
    malt (mseqL [mlit '[', mcap "level1" (mplus mupper), mlit ']'])
         (mcap "level2" (mplus mupper)),
    mopt (mseqL [mplus mspace, mlit '[',
                 mcap "component" (mplus (mcls (· ≠ ']'))), mlit ']']),
    mplus mspace,
    mcap "message" (mplus mdot),
    mcap "exception" (mstar (mseqL [mlit '\n', mplus mspace, mneg dateShape, mstar mdot]))
  ]

/-- Embeds `LOG_FORMATS["standard"]["entry_split_pattern"]` (the body of the
lookahead `(?=\d{4}-\d{2}-\d{2} \d{2}:\d{2}:\d{2})`). -/
def standardSplitShape : Rx := mseqL [dateShape, mlit ' ', timeShape]

/-- Embeds `LOG_FORMATS["apache"]["regex"]`:
`^(?P<ip>\S+)\s+-\s+-\s+\[(?P<timestamp>\d{2}/\w{3}/\d{4}:\d{2}:\d{2}:\d{2}\s[+-]\d{4})\]\s+`
`"(?P<method>[A-Z]+)\s+(?P<url>\S+)\s+HTTP/[\d\.]+"\s+(?P<status>\d+)\s+`
`(?P<size>\d+|-)\s*(?P<message>.*)$`. -/
def apacheRegex : Rx :=
  mseqL [
    mcap "ip" (mplus mnonspace),
    mplus mspace, mlit '-', mplus mspace, mlit '-', mplus mspace,
    mlit '[',
    mcap "timestamp" (mseqL
      [mrep 2 mdigit, mlit '/', mrep 3 mword, mlit '/', mrep 4 mdigit,
       mlit ':', mrep 2 mdigit, mlit ':', mrep 2 mdigit, mlit ':', mrep 2 mdigit,
       mspace, mcls (fun c => c = '+' || c = '-'), mrep 4 mdigit]),
    mlit ']', mplus mspace,
    mlit '"', mcap "method" (mplus mupper), mplus mspace,
    mcap "url" (mplus mnonspace), mplus mspace,
    mstrLit "HTTP/", mplus (mcls (fun c => c.isDigit || c = '.')), mlit '"',
    mplus mspace,
    mcap "status" (mplus mdigit), mplus mspace,
    mcap "size" (malt (mplus mdigit) (mlit '-')), mstar mspace,
    mcap "message" (mstar mdot), mdollar
  ]

/-- Embeds `LOG_FORMATS["apache"]["entry_split_pattern"]` (lookahead body
`\S+ - - \[\d{2}/\w{3}/\d{4}:\d{2}:\d{2}:\d{2} [+-]\d{4}\]`). -/
def apacheSplitShape : Rx :=
  mseqL [mplus mnonspace, mstrLit " - - [",
         mrep 2 mdigit, mlit '/', mrep 3 mword, mlit '/', mrep 4 mdigit,
         mlit ':', mrep 2 mdigit, mlit ':', mrep 2 mdigit, mlit ':', mrep 2 mdigit,
         mlit ' ', mcls (fun c => c = '+' || c = '-'), mrep 4 mdigit, mlit ']']

/-- Embeds `[A-Z][a-z]{2}\s+\d{1,2}\s+\d{2}:\d{2}:\d{2}` — the syslog timestamp
shape (also the body of `LOG_FORMATS["syslog"]["entry_split_pattern"]`). -/
def syslogTsShape : Rx :=
  mseqL [mupper, mrep 2 mlowerAZ, mplus mspace,
         malt (mrep 2 mdigit) mdigit, mplus mspace, timeShape]

/-- Embeds `LOG_FORMATS["syslog"]["regex"]`:
`^(?P<timestamp>[A-Z][a-z]{2}\s+\d{1,2}\s+\d{2}:\d{2}:\d{2})\s+`
`(?P<hostname>\S+)\s+(?P<process>\S+)(?:\[(?P<pid>\d+)\])?:`
`\s+(?P<message>.*)$`. -/
def syslogRegex : Rx :=
  mseqL [
    mcap "timestamp" syslogTsShape, mplus mspace,
    mcap "hostname" (mplus mnonspace), mplus mspace,
    mcap "process" (mplus mnonspace),
    mopt (mseqL [mlit '[', mcap "pid" (mplus mdigit), mlit ']']),
    mlit ':', mplus mspace, mcap "message" (mstar mdot), mdollar
  ]

/-- Embeds `LOG_FORMATS["syslog"]["entry_split_pattern"]` (lookahead body
`[A-Z][a-z]{2}\s+\d{1,2}\s+\d{2}:\d{2}:\d{2}`). -/
def syslogSplitShape : Rx := syslogTsShape

/-- Embeds `LOG_FORMATS["json"]["entry_split_pattern"]` (lookahead body `\{`). -/
def jsonSplitShape : Rx := mlit '\x7b'

/-- The registry's keys, in insertion order. -/
def formatIds : List String := ["standard", "apache", "json", "syslog"]

/-- A metadata dictionary, as built by the format processors. -/
abbrev Metadata := List (String × JValue)

/-! ## `re.split` with a zero-width lookahead pattern

`re.split` scans the text left to right; a zero-width lookahead matches at
every offset where its body matches (after an empty match the scanner
bumps along one character), and each such offset becomes a split point,
with the delimiter text kept — the fragments are the slices between
consecutive split points (a match at offset 0 contributes a leading empty
fragment, as in Python ≥ 3.7). -/

/-- The slice `cs[a:b]` as a string. -/
def sliceStr (cs : List Char) (a b : Nat) : String :=
  String.mk ((cs.drop a).take (b - a))

/-- Fragments between consecutive boundary offsets. -/
def chopAt (cs : List Char) : List Nat → List String
  | a :: b :: rest => sliceStr cs a b :: chopAt cs (b :: rest)
  | _ => []

/-- Embeds `re.split(r"(?=shape)", s)`. -/
def reSplit (shape : Rx) (s : String) : List String :=
  let cs := s.toList
  let cuts := (List.range cs.length).filter (fun i => matchesAt shape cs i)
  chopAt cs (0 :: (cuts ++ [cs.length]))

/-! ## The format processors -/

/-- Python `a or b` where `a` is a regex group value (`None` and the empty
string are falsy). -/
def pyOrStr (a : Option String) (b : String) : String :=
  match a with
  | some s => if s = "" then b else s
  | none => b

/-- The `level` variable of `process_standard_log`:
`match.group("level1") or match.group("level2") or "UNKNOWN"`. -/
def stdLevel (st : RState) : String :=
  pyOrStr (capGet st "level1") (pyOrStr (capGet st "level2") "UNKNOWN")

/-- The `message` variable of `process_standard_log`:
`match.group("message").strip()`. -/
def stdMessage (st : RState) : String :=
  pyStrip ((capGet st "message").getD "")

/-- The `exception` variable of `process_standard_log`:
`match.group("exception").strip() if match.group("exception") else ""`. -/
def stdException (st : RState) : String :=
  match capGet st "exception" with
  | some e => if e = "" then "" else pyStrip e
  | none => ""

/-- Embeds `process_standard_log(entry, format_info)`. -/
def process_standard_log (entry : String) : Option Metadata :=
  match reMatch standardRegex (pyStrip entry) with
  | none => none
  | some st =>
    match strptimeStd ((capGet st "timestamp").getD "") with
    | none => none
    | some parsed =>
      some [
        ("timestamp", .jstr ((capGet st "timestamp").getD "")),
        ("timestamp_iso", .jstr parsed.isoformat),
        ("timestamp_unix", .jfloat parsed.timestampQ),
        ("month", .jstr (monthFullName parsed.month)),
        ("year", .jint parsed.year),
        ("day", .jint parsed.day),
        ("level", .jstr (stdLevel st)),
        ("component", .jstr (pyOrStr (capGet st "component") "Unknown")),
        ("has_exception", .jbool (stdException st ≠ "")),
        ("message_preview", .jstr (if stdMessage st ≠ "" then pySlice (stdMessage st) 50 else "")),
        ("message", .jstr (stdMessage st)),
        ("exception", .jstr (stdException st)),
        ("raw", .jstr (pyStrip entry))
      ]

/-- Embeds `process_apache_log`'s status-to-level rule:
5xx → ERROR, 4xx → WARN, else INFO. -/
def apacheLevelOf (status_code : String) : String :=
  if pyStartsWith status_code "5" then "ERROR"
  else if pyStartsWith status_code "4" then "WARN"
  else "INFO"

/-- The `message` variable of `process_apache_log`:
`f"{method} {url} - {status}"`. -/
def apacheMessageOf (method url status_code : String) : String :=
  method ++ " " ++ url ++ " - " ++ status_code

/-- Embeds `process_apache_log(entry, format_info)`. -/
def process_apache_log (entry : String) : Option Metadata :=
  match reMatch apacheRegex (pyStrip entry) with
  | none => none
  | some st =>
    match strptimeApache ((capGet st "timestamp").getD "") with
    | none => none
    | some parsed =>
      let status_code := (capGet st "status").getD ""
      let level := apacheLevelOf status_code
      let message := apacheMessageOf ((capGet st "method").getD "")
                       ((capGet st "url").getD "") status_code
      some [
        ("timestamp", .jstr ((capGet st "timestamp").getD "")),
        ("timestamp_iso", .jstr parsed.isoformat),
        ("timestamp_unix", .jfloat parsed.timestampQ),
        ("month", .jstr (monthFullName parsed.month)),
        ("year", .jint parsed.year),
        ("day", .jint parsed.day),
        ("level", .jstr level),
        ("component", .jstr "Apache"),
        ("has_exception", .jbool false),
        ("message_preview", .jstr (pySlice message 50)),
        ("message", .jstr message),
        ("ip", .jstr ((capGet st "ip").getD "")),
        ("status", .jstr status_code),
        ("size", .jstr ((capGet st "size").getD "")),
        ("http_method", .jstr ((capGet st "method").getD "")),
        ("url", .jstr ((capGet st "url").getD "")),
        ("raw", .jstr (pyStrip entry))
      ]

/-- Embeds `isinstance(value, (str, int, float, bool)) and value is not None`. -/
def isScalarPy : JValue → Bool
  | .jstr _ => true
  | .jint _ => true
  | .jfloat _ => true
  | .jspecial _ => true
  | .jbool _ => true
  | _ => false

/-- The JSON processor's `for fmt in formats: try strptime` loop: the
ordered fallback layouts `%Y-%m-%dT%H:%M:%S.%fZ`, `%Y-%m-%dT%H:%M:%SZ`,
`%Y-%m-%d %H:%M:%S.%f`, `%Y-%m-%d %H:%M:%S`; the first success wins. -/
def jsonTryFormats (ts : String) : Option PyDateTime :=
  match strptimeIsoFracZ ts with
  | some p => some p
  | none =>
    match strptimeIsoZ ts with
    | some p => some p
    | none =>
      match strptimeStdFrac ts with
      | some p => some p
      | none => strptimeStd ts

/-- The timestamp alias chain
`data.get("timestamp", data.get("time", data.get("@timestamp", "")))`. -/
def jsonTsAlias (data : List (String × JValue)) : JValue :=
  pyGet data "timestamp" (pyGet data "time" (pyGet data "@timestamp" (.jstr "")))

/-- The level alias chain
`data.get("level", data.get("severity", data.get("log_level", "UNKNOWN")))`. -/
def jsonLevelAlias (data : List (String × JValue)) : JValue :=
  pyGet data "level" (pyGet data "severity" (pyGet data "log_level" (.jstr "UNKNOWN")))

/-- The message alias chain `data.get("message", data.get("msg", ""))`. -/
def jsonMsgAlias (data : List (String × JValue)) : JValue :=
  pyGet data "message" (pyGet data "msg" (.jstr ""))

/-- The component alias chain
`data.get("component", data.get("service", data.get("logger", "Unknown")))`. -/
def jsonComponentAlias (data : List (String × JValue)) : JValue :=
  pyGet data "component" (pyGet data "service" (pyGet data "logger" (.jstr "Unknown")))

/-- The `parsed_time` of `process_json_log`: a truthy string timestamp is
tried against the four layouts; anything else (falsy, non-string — whose
`strptime` call raises a `TypeError` the loop catches) leaves
`parsed_time = None`, replaced by `datetime.now()`. -/
def jsonParsedTime (timestamp : JValue) (now : PyDateTime) : PyDateTime :=
  (if timestamp.truthy then
    match timestamp with
    | .jstr ts => jsonTryFormats ts
    | _ => none
  else none).getD now

/-- Embeds `message[:50] if message else ""`: slicing a truthy non-sliceable
message raises (whole processor returns `None`); strings and lists
slice. -/
def jsonPreview (message : JValue) : Option JValue :=
  if message.truthy then
    match message with
    | .jstr m => some (.jstr (pySlice m 50))
    | .jarr l => some (.jarr (l.take 50))
    | _ => none
  else some (.jstr "")

/-- The metadata dict of `process_json_log`: the canonical fields, then
the pass-through of scalar non-null original fields whose keys are not
already present. -/
def jsonBuildMetadata (entry : String) (data : List (String × JValue))
    (lv : String) (preview : JValue) (parsed : PyDateTime) : Metadata :=
  (data.foldl (fun md kv =>
    if !dictHas md kv.1 && isScalarPy kv.2 then dictInsert md kv.1 kv.2 else md)
    [("timestamp", if (jsonTsAlias data).truthy then jsonTsAlias data
                   else .jstr parsed.isoformat),
     ("timestamp_iso", .jstr parsed.isoformat),
     ("timestamp_unix", .jfloat parsed.timestampQ),
     ("month", .jstr (monthFullName parsed.month)),
     ("year", .jint parsed.year),
     ("day", .jint parsed.day),
     ("level", .jstr (pyUpper lv)),
     ("component", jsonComponentAlias data),
     ("has_exception", .jbool (dictHas data "error" || dictHas data "exception" ||
                               dictHas data "stack" || dictHas data "stacktrace")),
     ("message_preview", preview),
     ("message", jsonMsgAlias data),
     ("raw", .jstr (pyStrip entry))])

/-- Embeds `process_json_log(entry, format_info)`.  Any Python exception on the
way (non-dict top level, `.upper()` on a non-string level, slicing a
non-sliceable message) is caught by the function's `except` and yields
`None`; a timestamp that is missing, falsy, or unparseable by all four
layouts falls back to `datetime.now()` (the explicit `now` argument). -/
def process_json_log (entry : String) (now : PyDateTime) : Option Metadata :=
  match jsonLoads (pyStrip entry) with
  | none => none
  | some (JValue.jobj data) =>
    match jsonLevelAlias data with
    | .jstr lv =>
      match jsonPreview (jsonMsgAlias data) with
      | none => none
      | some preview =>
        some (jsonBuildMetadata entry data lv preview
          (jsonParsedTime (jsonTsAlias data) now))
    | _ => none
  | some _ => none

/-- The year-inference of `process_syslog`: parse with the current year;
a result strictly in the future is re-parsed with the previous year (a
failure of either parse drops the entry). -/
def syslogInferTime (timestamp : String) (now : PyDateTime) : Option PyDateTime :=
  match strptimeSyslog (timestamp ++ " " ++ toString now.year) with
  | none => none
  | some p =>
    if p.gtDT now then strptimeSyslog (timestamp ++ " " ++ toString (now.year - 1))
    else some p

/-- Embeds `process_syslog`'s keyword-based level inference on the lowercased
message. -/
def syslogLevelOf (message : String) : String :=
  if strContains (pyLower message) "error" || strContains (pyLower message) "fatal" ||
     strContains (pyLower message) "critical" then "ERROR"
  else if strContains (pyLower message) "warn" then "WARN"
  else "INFO"

/-- Embeds `data.get("pid", "")` on the groupdict: an unmatched `pid` group is
present with value `None` (so the default is never used). -/
def syslogPid (st : RState) : JValue :=
  match capGet st "pid" with
  | some p => .jstr p
  | none => .null

/-- Embeds `process_syslog(entry, format_info)`. -/
def process_syslog (entry : String) (now : PyDateTime) : Option Metadata :=
  match reMatch syslogRegex (pyStrip entry) with
  | none => none
  | some st =>
    match syslogInferTime ((capGet st "timestamp").getD "") now with
    | none => none
    | some parsed =>
      let message := pyStrip ((capGet st "message").getD "")
      let process := (capGet st "process").getD "Unknown"
      some [
        ("timestamp", .jstr ((capGet st "timestamp").getD "")),
        ("timestamp_iso", .jstr parsed.isoformat),
        ("timestamp_unix", .jfloat parsed.timestampQ),
        ("month", .jstr (monthFullName parsed.month)),
        ("year", .jint parsed.year),
        ("day", .jint parsed.day),
        ("level", .jstr (syslogLevelOf message)),
        ("component", .jstr process),
        ("process", .jstr process),
        ("pid", syslogPid st),
        ("hostname", .jstr ((capGet st "hostname").getD "")),
        ("has_exception", .jbool false),
        ("message_preview", .jstr (pySlice message 50)),
        ("message", .jstr message),
        ("raw", .jstr (pyStrip entry))
      ]

/-! ## Detection and the pipeline -/

/-- A pattern-based grammar's detection score: split the sample on its
boundary rule and count fragments whose stripped text the structural
pattern matches. -/
def patternScore (shape rgx : Rx) (sample : String) : Nat :=
  ((reSplit shape sample).filter (fun e => (reMatch rgx (pyStrip e)).isSome)).length

/-- The guard `sample.strip().startswith("{") and "}" in sample` in
`detect_log_format`'s JSON branch. -/
def jsonGuard (sample : String) : Bool :=
  pyStartsWith (pyStrip sample) "\x7b" && strContains sample "\x7d"

/-- The JSON branch's score: of the first 10 lines of the stripped
sample, how many parse with `json.loads`. -/
def jsonScore (sample : String) : Nat :=
  ((splitOnChar '\n' (pyStrip sample)).take 10).countP
    (fun line => (jsonLoads (pyStrip line)).isSome)

/-- The `format_scores` dict, in its insertion order (`LOG_FORMATS`
iteration order; the `json` entry exists only when its guard holds). -/
def formatScores (sample : String) : List (String × Nat) :=
  [("standard", patternScore standardSplitShape standardRegex sample),
   ("apache", patternScore apacheSplitShape apacheRegex sample)] ++
  (if jsonGuard sample then [("json", jsonScore sample)] else []) ++
  [("syslog", patternScore syslogSplitShape syslogRegex sample)]

/-- One step of Python `max(items, key=lambda x: x[1])`: keep the running
maximum, replacing it only on a strictly greater score (so the first
maximal element wins). -/
def pickBest (best x : String × Nat) : String × Nat :=
  if x.2 > best.2 then x else best

/-- Python `max(items, key=...)`: the first maximal element. -/
def firstMax (l : List (String × Nat)) : String × Nat :=
  match l with
  | [] => ("", 0)
  | h :: t => t.foldl pickBest h

/-- Embeds `detect_log_format(content)`: sample the first 5000 characters, score
every registered grammar, return the best-scoring format when its score
is positive, else default to `"standard"`. -/
def detect_log_format (content : String) : String :=
  if (firstMax (formatScores (pySlice content 5000))).2 > 0 then
    (firstMax (formatScores (pySlice content 5000))).1
  else "standard"

/-- The `langchain` `Document` handed downstream: page content (the
`message` metadata value, or the stripped entry if absent) plus the
metadata dictionary. -/
structure Document where
  page_content : JValue
  metadata : Metadata
deriving Repr

/-- Embeds `FORMAT_PROCESSORS.get(format_id)` followed by
`processor(entry, format_info)`. -/
def processorFor (fid : String) (entry : String) (now : PyDateTime) : Option Metadata :=
  if fid = "standard" then process_standard_log entry
  else if fid = "apache" then process_apache_log entry
  else if fid = "json" then process_json_log entry now
  else if fid = "syslog" then process_syslog entry now
  else none

/-- Embeds `parse_log_entry(entry, format_id)`: an unregistered format id is
silently replaced by `"standard"`, the format's processor runs, and a
truthy (nonempty) metadata dict is wrapped in a `Document`. -/
def parse_log_entry (entry : String) (format_id : String) (now : PyDateTime) :
    Option Document :=
  (processorFor (if formatIds.contains format_id then format_id else "standard")
      entry now).map (fun md =>
    { page_content := (dictGet md "message").getD (.jstr (pyStrip entry)),
      metadata := md })

/-- The format id `process_logs` ends up using: `format_id = None`, the
empty string (both falsy), or an unregistered id triggers
auto-detection. -/
def resolveFormatId (content : String) (format_id : Option String) : String :=
  match format_id with
  | none => detect_log_format content
  | some f => if f = "" || !formatIds.contains f then detect_log_format content else f

/-- The `entry_split_pattern` of a (registered, non-JSON) format id. -/
def splitShapeFor (fid : String) : Rx :=
  if fid = "apache" then apacheSplitShape
  else if fid = "syslog" then syslogSplitShape
  else standardSplitShape

/-- Embeds `process_logs(file_path, format_id)`, with the file's text passed
directly (`content = file.read()`).  JSON content is split by lines of the
stripped text, other formats by their entry-split pattern on the raw
text; blank fragments are skipped and fragments whose processor rejects
them are dropped. -/
def process_logs (content : String) (format_id : Option String) (now : PyDateTime) :
    List Document :=
  if resolveFormatId content format_id = "json" then
    (splitOnChar '\n' (pyStrip content)).filterMap (fun line =>
      if pyStrip line ≠ "" then
        parse_log_entry line (resolveFormatId content format_id) now
      else none)
  else
    (reSplit (splitShapeFor (resolveFormatId content format_id)) content).filterMap
      (fun e =>
        if pyStrip e ≠ "" then
          parse_log_entry e (resolveFormatId content format_id) now
        else none)

/-! ## Shared lemmas about the embedding -/

/-- The metadata's `timestamp_iso` and `timestamp_unix` fields are both
derived from the datetime `dt`. -/
def tsFieldsFrom (md : Metadata) (dt : PyDateTime) : Prop :=
  dictGet md "timestamp_iso" = some (.jstr dt.isoformat) ∧
  dictGet md "timestamp_unix" = some (.jfloat dt.timestampQ)

theorem dictGet_dictInsert (d : List (String × JValue)) (k : String) (v : JValue)
    (key : String) :
    dictGet (dictInsert d k v) key = if key = k then some v else dictGet d key := by
  induction d with
  | nil => simp [dictInsert, dictGet]
  | cons hd tl ih =>
    obtain ⟨k', v'⟩ := hd
    by_cases h1 : k = k'
    · subst h1
      by_cases h2 : key = k <;> simp [dictInsert, dictGet, h2]
    · by_cases h2 : key = k'
      · subst h2
        simp [dictInsert, dictGet, h1, Ne.symm h1]
      · simp [dictInsert, dictGet, h1, h2, ih]

/-- The pass-through loop of `process_json_log` only ever adds keys that
are not yet present, so lookups of already-present keys are unchanged. -/
theorem dictGet_extrasFold (l : List (String × JValue)) (base : Metadata) (key : String)
    (hk : (dictGet base key).isSome = true) :
    dictGet (l.foldl (fun md kv =>
        if !dictHas md kv.1 && isScalarPy kv.2 then dictInsert md kv.1 kv.2 else md) base) key
      = dictGet base key := by
  induction l generalizing base with
  | nil => rfl
  | cons kv tl ih =>
    simp only [List.foldl_cons]
    by_cases hc : (!dictHas base kv.1 && isScalarPy kv.2) = true
    · have h1 : dictHas base kv.1 = false := by
        rcases Bool.and_eq_true_iff.mp hc with ⟨hb, _⟩
        simpa using hb
      have hne : key ≠ kv.1 := by
        intro he
        rw [← he] at h1
        unfold dictHas at h1
        rw [h1] at hk
        exact Bool.noConfusion hk
      have hk' : (dictGet (dictInsert base kv.1 kv.2) key).isSome = true := by
        rw [dictGet_dictInsert, if_neg hne]
        exact hk
      rw [if_pos hc, ih (dictInsert base kv.1 kv.2) hk', dictGet_dictInsert, if_neg hne]
    · rw [if_neg hc]
      exact ih base hk

theorem std_emits_ts (entry : String) (md : Metadata)
    (h : process_standard_log entry = some md) :
    ∃ ts dt, strptimeStd ts = some dt ∧ dictGet md "timestamp" = some (.jstr ts) ∧
      tsFieldsFrom md dt := by
  unfold process_standard_log at h
  rcases hm : reMatch standardRegex (pyStrip entry) with _ | st
  · simp [hm] at h
  · simp only [hm] at h
    rcases hp : strptimeStd ((capGet st "timestamp").getD "") with _ | parsed
    · simp [hp] at h
    · simp only [hp] at h
      rw [Option.some.injEq] at h
      subst h
      exact ⟨_, _, hp, rfl, rfl, rfl⟩

theorem apache_emits_ts (entry : String) (md : Metadata)
    (h : process_apache_log entry = some md) :
    ∃ ts dt, strptimeApache ts = some dt ∧ dictGet md "timestamp" = some (.jstr ts) ∧
      tsFieldsFrom md dt := by
  unfold process_apache_log at h
  rcases hm : reMatch apacheRegex (pyStrip entry) with _ | st
  · simp [hm] at h
  · simp only [hm] at h
    rcases hp : strptimeApache ((capGet st "timestamp").getD "") with _ | parsed
    · simp [hp] at h
    · simp only [hp] at h
      rw [Option.some.injEq] at h
      subst h
      exact ⟨_, _, hp, rfl, rfl, rfl⟩

theorem syslog_emits_ts (entry : String) (now : PyDateTime) (md : Metadata)
    (h : process_syslog entry now = some md) :
    ∃ ts dt, syslogInferTime ts now = some dt ∧ dictGet md "timestamp" = some (.jstr ts) ∧
      tsFieldsFrom md dt := by
  unfold process_syslog at h
  rcases hm : reMatch syslogRegex (pyStrip entry) with _ | st
  · simp [hm] at h
  · simp only [hm] at h
    rcases hp : syslogInferTime ((capGet st "timestamp").getD "") now with _ | parsed
    · simp [hp] at h
    · simp only [hp] at h
      rw [Option.some.injEq] at h
      subst h
      exact ⟨_, _, hp, rfl, rfl, rfl⟩

/-- Provenance: `jsonParsedTime` is either a parse of some timestamp string or the
current time. -/
theorem jsonParsedTime_cases (t : JValue) (now : PyDateTime) :
    jsonParsedTime t now = now ∨ ∃ ts, jsonTryFormats ts = some (jsonParsedTime t now) := by
  cases t with
  | jstr ts =>
    by_cases hts : ts = ""
    · subst hts
      left
      rfl
    · have htr : (JValue.jstr ts).truthy = true := by simp [JValue.truthy, hts]
      cases hj : jsonTryFormats ts with
      | none =>
        left
        simp [jsonParsedTime, htr, hj]
      | some p =>
        right
        refine ⟨ts, ?_⟩
        simp [jsonParsedTime, htr, hj]
  | null => left; rfl
  | jbool b => left; simp [jsonParsedTime]
  | jint n => left; simp [jsonParsedTime]
  | jfloat q => left; simp [jsonParsedTime]
  | jspecial s => left; rfl
  | jarr l => left; simp [jsonParsedTime]
  | jobj o => left; simp [jsonParsedTime]

theorem json_emits_ts (entry : String) (now : PyDateTime) (md : Metadata)
    (h : process_json_log entry now = some md) :
    ∃ dt, (dt = now ∨ ∃ ts, jsonTryFormats ts = some dt) ∧ tsFieldsFrom md dt := by
  unfold process_json_log at h
  rcases hm : jsonLoads (pyStrip entry) with _ | v
  · simp [hm] at h
  · simp only [hm] at h
    cases v with
    | jobj data =>
      rcases hl : jsonLevelAlias data with _ | _ | _ | _ | _ | lv | _ | _ <;>
        simp only [hl] at h <;> try exact absurd h (by simp)
      rcases hp : jsonPreview (jsonMsgAlias data) with _ | preview
      · simp [hp] at h
      · simp only [hp] at h
        rw [Option.some.injEq] at h
        subst h
        refine ⟨jsonParsedTime (jsonTsAlias data) now, ?_, ?_, ?_⟩
        · rcases jsonParsedTime_cases (jsonTsAlias data) now with hc | ⟨ts, hts⟩
          · left; exact hc
          · right; exact ⟨ts, hts⟩
        · unfold jsonBuildMetadata
          rw [dictGet_extrasFold]
          · rfl
          · rfl
        · unfold jsonBuildMetadata
          rw [dictGet_extrasFold]
          · rfl
          · rfl
    | null => simp at h
    | jbool b => simp at h
    | jint n => simp at h
    | jfloat q => simp at h
    | jspecial s => simp at h
    | jstr s => simp at h
    | jarr l => simp at h

theorem processor_emits_ts (fid entry : String) (now : PyDateTime) (md : Metadata)
    (h : processorFor fid entry now = some md) : ∃ dt, tsFieldsFrom md dt := by
  unfold processorFor at h
  split_ifs at h
  · obtain ⟨ts, dt, _, _, hf⟩ := std_emits_ts entry md h
    exact ⟨dt, hf⟩
  · obtain ⟨ts, dt, _, _, hf⟩ := apache_emits_ts entry md h
    exact ⟨dt, hf⟩
  · obtain ⟨dt, _, hf⟩ := json_emits_ts entry now md h
    exact ⟨dt, hf⟩
  · obtain ⟨ts, dt, _, _, hf⟩ := syslog_emits_ts entry now md h
    exact ⟨dt, hf⟩

theorem parse_emits_ts (entry fmt : String) (now : PyDateTime) (doc : Document)
    (h : parse_log_entry entry fmt now = some doc) :
    ∃ dt, tsFieldsFrom doc.metadata dt := by
  unfold parse_log_entry at h
  rcases Option.map_eq_some'.mp h with ⟨md, hmd, hdoc⟩
  obtain ⟨dt, hf⟩ := processor_emits_ts _ _ _ _ hmd
  subst hdoc
  exact ⟨dt, hf⟩

theorem pipeline_emits_ts (content : String) (format_id : Option String)
    (now : PyDateTime) (doc : Document) (h : doc ∈ process_logs content format_id now) :
    ∃ dt, tsFieldsFrom doc.metadata dt := by
  unfold process_logs at h
  by_cases hj : resolveFormatId content format_id = "json"
  · rw [if_pos hj] at h
    rcases List.mem_filterMap.mp h with ⟨line, _, hp⟩
    by_cases hb : pyStrip line ≠ ""
    · rw [if_pos hb] at hp
      exact parse_emits_ts _ _ _ _ hp
    · rw [if_neg hb] at hp
      exact Option.noConfusion hp
  · rw [if_neg hj] at h
    rcases List.mem_filterMap.mp h with ⟨e, _, hp⟩
    by_cases hb : pyStrip e ≠ ""
    · rw [if_pos hb] at hp
      exact parse_emits_ts _ _ _ _ hp
    · rw [if_neg hb] at hp
      exact Option.noConfusion hp

/-! ## The claims -/

/-- C1: every record emitted by the pipeline carries a parseable, non-null
timestamp.  Every metadata dict returned by a format processor has
`timestamp_iso` and `timestamp_unix` derived from one successfully
constructed datetime: the standard, apache and syslog processors only
emit when `strptime` (for syslog, with the inferred year) succeeded on the
captured timestamp — so an entry whose timestamp fails to parse is never
emitted — and the json processor falls back to the current time
(`datetime.now()`), itself a valid datetime; consequently every `Document`
returned by `process_logs` carries both fields derived from a datetime. -/
theorem C1_parseable_timestamp_invariant :
    (∀ entry md, process_standard_log entry = some md →
      ∃ ts dt, strptimeStd ts = some dt ∧
        dictGet md "timestamp" = some (.jstr ts) ∧ tsFieldsFrom md dt) ∧
    (∀ entry md, process_apache_log entry = some md →
      ∃ ts dt, strptimeApache ts = some dt ∧
        dictGet md "timestamp" = some (.jstr ts) ∧ tsFieldsFrom md dt) ∧
    (∀ entry now md, process_syslog entry now = some md →
      ∃ ts dt, syslogInferTime ts now = some dt ∧
        dictGet md "timestamp" = some (.jstr ts) ∧ tsFieldsFrom md dt) ∧
    (∀ entry now md, process_json_log entry now = some md →
      ∃ dt, (dt = now ∨ ∃ ts, jsonTryFormats ts = some dt) ∧ tsFieldsFrom md dt) ∧
    (∀ content format_id now doc, doc ∈ process_logs content format_id now →
      ∃ dt, tsFieldsFrom doc.metadata dt) :=
  ⟨std_emits_ts, apache_emits_ts, syslog_emits_ts, json_emits_ts, pipeline_emits_ts⟩

/-- A fixed clock instant used by concrete witnesses. -/
def wNow : PyDateTime := ⟨2025, 12, 15, 12, 0, 0, 0, none⟩

/-- A well-formed standard-format entry used by concrete witnesses. -/
def wStdEntry : String := "2024-01-05 10:00:00 INFO hi"

/-- The metadata the standard processor produces for `wStdEntry`. -/
def wStdMd : Metadata := (process_standard_log wStdEntry).getD []

/-- The document the pipeline produces for `wStdEntry`. -/
def wStdDoc : Document := (parse_log_entry wStdEntry "standard" wNow).getD ⟨.null, []⟩

set_option maxHeartbeats 2000000 in
/-- C1 witness: the invariant applied at a concrete entry and a concrete
pipeline run. -/
theorem C1_parseable_timestamp_invariant_witness :
    (∃ ts dt, strptimeStd ts = some dt ∧
      dictGet wStdMd "timestamp" = some (.jstr ts) ∧ tsFieldsFrom wStdMd dt) ∧
    (∃ dt, tsFieldsFrom wStdDoc.metadata dt) :=
  ⟨C1_parseable_timestamp_invariant.1 wStdEntry wStdMd rfl,
   C1_parseable_timestamp_invariant.2.2.2.2 wStdEntry (some "standard") wNow wStdDoc
     (by rw [show process_logs wStdEntry (some "standard") wNow = [wStdDoc] from rfl]
         exact List.Mem.head _)⟩

end LogProc

namespace LogProc

/-- The contents of a log file holding one well-formed standard entry and
one entry whose timestamp has the right shape but no valid month
(`2024-13-05`), so that the structural pattern matches and `strptime`
fails. -/
def mixedContent : String :=
  "2024-01-05 10:00:00 [ERROR] [DB] Connection failed\n2024-13-05 10:00:05 INFO bad"

/-- C2: `process_logs` degrades gracefully and never aborts.  On empty
input it returns the empty sequence for every requested format id
(registered, unregistered, empty or absent); on input in which no entry
matches the chosen format it returns the empty sequence; and on a file
holding one well-formed standard entry and one entry with an unparseable
timestamp it returns exactly one record — the well-formed one — with the
malformed entry dropped. -/
theorem C2_graceful_degradation :
    (∀ format_id now, process_logs "" format_id now = []) ∧
    (∀ now, process_logs "hello world\nno timestamps here" (some "standard") now = []) ∧
    (∀ now, (process_logs mixedContent (some "standard") now).map
        (fun d => dictGet d.metadata "message")
      = [some (.jstr "Connection failed")]) := by
  refine ⟨?_, fun _ => rfl, fun _ => rfl⟩
  intro format_id now
  cases format_id with
  | none => rfl
  | some f =>
    by_cases h1 : f = "standard"
    · subst h1; rfl
    by_cases h2 : f = "apache"
    · subst h2; rfl
    by_cases h3 : f = "json"
    · subst h3; rfl
    by_cases h4 : f = "syslog"
    · subst h4; rfl
    have hc : formatIds.contains f = false := by
      simp [formatIds, h1, h2, h3, h4]
    have hres : resolveFormatId "" (some f) = "standard" := by
      simp only [resolveFormatId, hc, Bool.not_false, Bool.or_true]
      rfl
    unfold process_logs
    rw [hres]
    rfl

/-- The end-to-end example input of the spec: a bracketed-level entry with
a component and an indented continuation line, then a bare-level entry. -/
def c3Input : String :=
  "2024-01-05 10:00:00 [ERROR] [DB] Connection failed\n    at retry(...)\n2024-01-05 10:00:05 INFO Request handled"

/-- C3: processing the example input with the `standard` (generic
timestamped) format yields exactly two records; the first has level
`ERROR` (from the bracketed slot), component `DB`, message
`Connection failed` and a captured exception (`has_exception = true`);
the second takes its level `INFO` from the bare slot, defaults the
component to `Unknown`, and has no exception. -/
theorem C3_generic_timestamped_extraction :
    ∀ now, (process_logs c3Input (some "standard") now).map
      (fun d => (dictGet d.metadata "level", dictGet d.metadata "component",
                 dictGet d.metadata "message", dictGet d.metadata "has_exception"))
    = [(some (.jstr "ERROR"), some (.jstr "DB"),
        some (.jstr "Connection failed"), some (.jbool true)),
       (some (.jstr "INFO"), some (.jstr "Unknown"),
        some (.jstr "Request handled"), some (.jbool false))] :=
  fun _ => rfl

end LogProc

namespace LogProc

/-- Concatenation of a list of fragments. -/
def concatStrs (l : List String) : String := l.foldr (· ++ ·) ""

theorem sliceStr_append (cs : List Char) (a b c : Nat) (hab : a ≤ b) (hbc : b ≤ c) :
    sliceStr cs a b ++ sliceStr cs b c = sliceStr cs a c := by
  have h1 : cs.drop b = (cs.drop a).drop (b - a) := by
    rw [List.drop_drop]
    congr 1
    omega
  have h2 : (cs.drop a).take (b - a) ++ ((cs.drop a).drop (b - a)).take (c - b)
      = (cs.drop a).take (c - a) := by
    rw [← List.take_add]
    congr 1
    omega
  show String.mk ((cs.drop a).take (b - a) ++ (cs.drop b).take (c - b))
      = String.mk ((cs.drop a).take (c - a))
  rw [h1]
  exact congrArg String.mk h2

theorem join_chopAt (cs : List Char) :
    ∀ (cuts : List Nat) (a : Nat),
      (∀ x ∈ cuts, a ≤ x ∧ x ≤ cs.length) → List.Pairwise (· ≤ ·) cuts →
      a ≤ cs.length →
      concatStrs (chopAt cs (a :: (cuts ++ [cs.length]))) = sliceStr cs a cs.length := by
  intro cuts
  induction cuts with
  | nil =>
    intro a _ _ _
    show sliceStr cs a cs.length ++ "" = sliceStr cs a cs.length
    exact congrArg String.mk (List.append_nil _)
  | cons c1 rest ih =>
    intro a hmem hpw ha
    obtain ⟨hac1, hc1n⟩ := hmem c1 (by simp)
    have hrest : ∀ x ∈ rest, c1 ≤ x ∧ x ≤ cs.length := by
      intro x hx
      exact ⟨(List.pairwise_cons.mp hpw).1 x hx, (hmem x (by simp [hx])).2⟩
    show sliceStr cs a c1 ++ concatStrs (chopAt cs (c1 :: (rest ++ [cs.length]))) = _
    rw [ih c1 hrest (List.pairwise_cons.mp hpw).2 hc1n]
    exact sliceStr_append cs a c1 cs.length hac1 hc1n

/-- The split is zero-width: fragments concatenate back to the input
(no characters are consumed; delimiter text stays in the fragments). -/
theorem reSplit_concat (shape : Rx) (s : String) :
    concatStrs (reSplit shape s) = s := by
  obtain ⟨d⟩ := s
  unfold reSplit
  have hpw : List.Pairwise (· ≤ ·)
      ((List.range (String.mk d).toList.length).filter
        (fun i => matchesAt shape (String.mk d).toList i)) :=
    ((List.pairwise_lt_range _).filter _).imp le_of_lt
  have hmem : ∀ x ∈ (List.range (String.mk d).toList.length).filter
      (fun i => matchesAt shape (String.mk d).toList i),
      0 ≤ x ∧ x ≤ (String.mk d).toList.length := by
    intro x hx
    have := List.mem_range.mp (List.mem_of_mem_filter hx)
    omega
  rw [join_chopAt _ _ 0 hmem hpw (Nat.zero_le _)]
  show String.mk (d.take d.length) = String.mk d
  rw [List.take_length]

/-- Modelled from the spec's words, for comparison with the code (claim
C4): split only at positions where the boundary pattern matches at the
start of a line (offset 0 or a position immediately after a newline). -/
def specSplitAtLineStarts (shape : Rx) (s : String) : List String :=
  let cs := s.toList
  let cuts := (List.range cs.length).filter (fun i =>
    matchesAt shape cs i && (i = 0 || cs.get? (i - 1) = some '\n'))
  chopAt cs (0 :: (cuts ++ [cs.length]))

/-- C4 counterexample: the splitter does not restrict itself to positions
at the start of a line.  On the one-line input
`"abc 2024-01-05 10:00:00 x"` the code's `re.split` cuts mid-line in
front of the timestamp, yielding two fragments, while the claim's
line-start rule would leave the input whole. -/
theorem C4_counterexample :
    reSplit standardSplitShape "abc 2024-01-05 10:00:00 x"
      = ["abc ", "2024-01-05 10:00:00 x"] ∧
    specSplitAtLineStarts standardSplitShape "abc 2024-01-05 10:00:00 x"
      = ["abc 2024-01-05 10:00:00 x"] :=
  ⟨rfl, rfl⟩

/-- The first entry of the two-entry splitting example. -/
def c4EntryA : String := "2024-01-05 10:00:00 [ERROR] [DB] Connection failed\n    at retry(...)\n"

/-- The second entry of the two-entry splitting example. -/
def c4EntryB : String := "2024-01-05 10:00:05 INFO Request handled"

/-- C4 (amended): the splitter partitions the text at every position
where the grammar's boundary pattern matches — at any offset, not only at
line starts — using a zero-width lookahead, so no input characters are
consumed (the fragments concatenate back to the input, order preserved,
with the delimiter text retained at the head of the following fragment);
splitting the concatenation of two valid generic-timestamped entries
yields those two entries preceded by one empty fragment (the zero-width
match at offset 0), and exactly the two entries once blank fragments are
discarded, as the pipeline discards them. -/
theorem C4_split_zero_width_anywhere :
    (∀ shape content, concatStrs (reSplit shape content) = content) ∧
    reSplit standardSplitShape (c4EntryA ++ c4EntryB) = ["", c4EntryA, c4EntryB] ∧
    (reSplit standardSplitShape (c4EntryA ++ c4EntryB)).filter
        (fun e => pyStrip e ≠ "") = [c4EntryA, c4EntryB] :=
  ⟨reSplit_concat, by decide, by decide⟩

end LogProc

namespace LogProc

/-- C5: web-access (apache) extraction derives the severity level solely
from the status code's leading digit — `5…` → ERROR, `4…` → WARN,
anything else → INFO — synthesizes the message as
`"{METHOD} {URL} - {STATUS}"`, fixes the component to the constant
`"Apache"`, and always sets `has_exception` to `false`. -/
theorem C5_web_access_extraction :
    ∀ entry md, process_apache_log entry = some md →
      ∃ method url status,
        dictGet md "http_method" = some (.jstr method) ∧
        dictGet md "url" = some (.jstr url) ∧
        dictGet md "status" = some (.jstr status) ∧
        dictGet md "message" = some (.jstr (method ++ " " ++ url ++ " - " ++ status)) ∧
        dictGet md "level" = some (.jstr
          (if pyStartsWith status "5" then "ERROR"
           else if pyStartsWith status "4" then "WARN"
           else "INFO")) ∧
        dictGet md "component" = some (.jstr "Apache") ∧
        dictGet md "has_exception" = some (.jbool false) := by
  intro entry md h
  unfold process_apache_log at h
  rcases hm : reMatch apacheRegex (pyStrip entry) with _ | st
  · simp [hm] at h
  · simp only [hm] at h
    rcases hp : strptimeApache ((capGet st "timestamp").getD "") with _ | parsed
    · simp [hp] at h
    · simp only [hp] at h
      rw [Option.some.injEq] at h
      subst h
      exact ⟨_, _, _, rfl, rfl, rfl, rfl, rfl, rfl, rfl⟩

/-- A web-access entry with status 503. -/
def wApache503 : String :=
  "127.0.0.1 - - [10/Oct/2024:13:55:36 +0000] \"GET /index.html HTTP/1.1\" 503 2326"

/-- A web-access entry with status 404. -/
def wApache404 : String :=
  "10.0.0.2 - - [10/Oct/2024:13:55:40 +0000] \"POST /missing HTTP/1.1\" 404 153"

/-- A web-access entry with status 200. -/
def wApache200 : String :=
  "10.0.0.3 - - [10/Oct/2024:13:55:41 +0000] \"GET /ok HTTP/1.0\" 200 512"

/-- The metadata for `wApache503`. -/
def wApacheMd503 : Metadata := (process_apache_log wApache503).getD []

/-- The metadata for `wApache404`. -/
def wApacheMd404 : Metadata := (process_apache_log wApache404).getD []

/-- The metadata for `wApache200`. -/
def wApacheMd200 : Metadata := (process_apache_log wApache200).getD []

/-- C5 witness: the extraction contract applied at concrete 503, 404 and
200 entries, whose levels evaluate to ERROR, WARN and INFO. -/
theorem C5_web_access_extraction_witness :
    (∃ method url status,
      dictGet wApacheMd503 "http_method" = some (.jstr method) ∧
      dictGet wApacheMd503 "url" = some (.jstr url) ∧
      dictGet wApacheMd503 "status" = some (.jstr status) ∧
      dictGet wApacheMd503 "message" = some (.jstr (method ++ " " ++ url ++ " - " ++ status)) ∧
      dictGet wApacheMd503 "level" = some (.jstr
        (if pyStartsWith status "5" then "ERROR"
         else if pyStartsWith status "4" then "WARN"
         else "INFO")) ∧
      dictGet wApacheMd503 "component" = some (.jstr "Apache") ∧
      dictGet wApacheMd503 "has_exception" = some (.jbool false)) ∧
    dictGet wApacheMd503 "level" = some (.jstr "ERROR") ∧
    dictGet wApacheMd404 "level" = some (.jstr "WARN") ∧
    dictGet wApacheMd200 "level" = some (.jstr "INFO") :=
  ⟨C5_web_access_extraction wApache503 wApacheMd503 rfl, rfl, rfl, rfl⟩

end LogProc

namespace LogProc

theorem foldl_pickBest_mem : ∀ (t : List (String × Nat)) (b : String × Nat),
    t.foldl pickBest b = b ∨ t.foldl pickBest b ∈ t := by
  intro t
  induction t with
  | nil => intro b; left; rfl
  | cons y t ih =>
    intro b
    simp only [List.foldl_cons, pickBest]
    by_cases hy : y.2 > b.2
    · rw [if_pos hy]
      rcases ih y with h | h
      · right; rw [h]; exact List.mem_cons_self _ _
      · right; exact List.mem_cons_of_mem _ h
    · rw [if_neg hy]
      rcases ih b with h | h
      · left; exact h
      · right; exact List.mem_cons_of_mem _ h

theorem foldl_pickBest_ge : ∀ (t : List (String × Nat)) (b : String × Nat),
    b.2 ≤ (t.foldl pickBest b).2 ∧ ∀ x ∈ t, x.2 ≤ (t.foldl pickBest b).2 := by
  intro t
  induction t with
  | nil =>
    intro b
    exact ⟨le_refl _, by simp⟩
  | cons y t ih =>
    intro b
    simp only [List.foldl_cons, pickBest]
    by_cases hy : y.2 > b.2
    · rw [if_pos hy]
      refine ⟨le_of_lt (lt_of_lt_of_le hy (ih y).1), ?_⟩
      intro x hx
      rcases List.mem_cons.mp hx with h | h
      · rw [h]; exact (ih y).1
      · exact (ih y).2 x h
    · rw [if_neg hy]
      refine ⟨(ih b).1, ?_⟩
      intro x hx
      rcases List.mem_cons.mp hx with h | h
      · rw [h]; exact le_trans (Nat.le_of_not_lt hy) (ih b).1
      · exact (ih b).2 x h

theorem foldl_pickBest_first : ∀ (t : List (String × Nat)) (b : String × Nat),
    t.foldl pickBest b = b ∨
    (b.2 < (t.foldl pickBest b).2 ∧ ∃ pre post, t = pre ++ (t.foldl pickBest b) :: post ∧
      ∀ y ∈ pre, y.2 < (t.foldl pickBest b).2) := by
  intro t
  induction t with
  | nil => intro b; left; rfl
  | cons y t ih =>
    intro b
    simp only [List.foldl_cons, pickBest]
    by_cases hy : y.2 > b.2
    · rw [if_pos hy]
      right
      rcases ih y with h | ⟨hlt, pre, post, heq, hpre⟩
      · rw [h]
        exact ⟨hy, [], t, rfl, by simp⟩
      · refine ⟨lt_trans hy hlt, y :: pre, post,
          by rw [List.cons_append]; exact congrArg (List.cons y) heq, ?_⟩
        intro z hz
        rcases List.mem_cons.mp hz with h | h
        · rw [h]; exact hlt
        · exact hpre z h
    · rw [if_neg hy]
      rcases ih b with h | ⟨hlt, pre, post, heq, hpre⟩
      · left; exact h
      · right
        refine ⟨hlt, y :: pre, post,
          by rw [List.cons_append]; exact congrArg (List.cons y) heq, ?_⟩
        intro z hz
        rcases List.mem_cons.mp hz with h | h
        · rw [h]; exact lt_of_le_of_lt (Nat.le_of_not_lt hy) hlt
        · exact hpre z h

theorem formatScores_ne_nil (s : String) : formatScores s ≠ [] := by
  unfold formatScores
  by_cases hg : jsonGuard s <;> simp [hg]

theorem formatScores_keys (s : String) : ∀ x ∈ formatScores s, x.1 ∈ formatIds := by
  intro x hx
  have hmap : x.1 ∈ (formatScores s).map Prod.fst := List.mem_map_of_mem _ hx
  by_cases hg : jsonGuard s
  · rw [show (formatScores s).map Prod.fst = ["standard", "apache", "json", "syslog"] by
      unfold formatScores; rw [if_pos hg]; rfl] at hmap
    exact hmap
  · rw [show (formatScores s).map Prod.fst = ["standard", "apache", "syslog"] by
      unfold formatScores; rw [if_neg hg]; rfl] at hmap
    simp only [List.mem_cons, List.not_mem_nil, or_false] at hmap
    rcases hmap with h | h | h <;> simp [formatIds, h]

end LogProc

namespace LogProc

/-- A sample whose first line is not JSON but whose remaining lines are
valid JSON records. -/
def c6Cex : String := "x\n\x7b\"a\": 1\x7d\n\x7b\"a\": 2\x7d"

/-- C6 counterexample: the detector does not score the json grammar as
"the count of the first N sampled lines that parse as valid JSON": on a
sample whose first character is not `{`, json receives no score at all
(the `sample.strip().startswith("{")` guard fails), even though two of
its lines parse as JSON; every pattern-based score is 0, so the detector
returns `"standard"` although the claimed scoring would make json the
strict winner. -/
theorem C6_counterexample :
    detect_log_format c6Cex = "standard" ∧
    jsonScore c6Cex = 2 ∧
    jsonGuard c6Cex = false ∧
    formatScores c6Cex = [("standard", 0), ("apache", 0), ("syslog", 0)] ∧
    "standard" ≠ "json" :=
  ⟨rfl, rfl, rfl, rfl, by decide⟩

theorem firstMax_mem (l : List (String × Nat)) (hl : l ≠ []) : firstMax l ∈ l := by
  rcases l with _ | ⟨h0, t0⟩
  · exact absurd rfl hl
  · show t0.foldl pickBest h0 ∈ h0 :: t0
    rcases foldl_pickBest_mem t0 h0 with h | h
    · rw [h]; exact List.mem_cons_self _ _
    · exact List.mem_cons_of_mem _ h

/-- C6 (amended): `detect_log_format` is total — it returns a registered
format id for every input — and follows the code's scoring algorithm: the
json grammar is scored (as the count of the first 10 lines of the
stripped sample that parse as JSON) only when the stripped sample starts
with `{` and the sample contains `}`, and is otherwise absent from the
score table; pattern-based grammars are scored by splitting on their
boundary rule and counting matching fragments; the format with the
strictly highest score wins, ties broken by registry order (`firstMax`
returns the first maximal element, everything before it scoring strictly
less), and a best score of zero falls back to `"standard"`. -/
theorem C6_detect_scoring_and_totality :
    (∀ content, detect_log_format content ∈ formatIds) ∧
    (∀ content, 0 < (firstMax (formatScores (pySlice content 5000))).2 →
      detect_log_format content = (firstMax (formatScores (pySlice content 5000))).1) ∧
    (∀ content, (firstMax (formatScores (pySlice content 5000))).2 = 0 →
      detect_log_format content = "standard") ∧
    (∀ s, jsonGuard s = false → "json" ∉ (formatScores s).map Prod.fst) ∧
    (∀ s, jsonGuard s = true → ("json", jsonScore s) ∈ formatScores s) ∧
    (∀ l : List (String × Nat), l ≠ [] →
      firstMax l ∈ l ∧ (∀ x ∈ l, x.2 ≤ (firstMax l).2) ∧
      ∃ pre post, l = pre ++ firstMax l :: post ∧
        ∀ y ∈ pre, y.2 < (firstMax l).2) := by
  refine ⟨?_, ?_, ?_, ?_, ?_, ?_⟩
  · intro content
    unfold detect_log_format
    by_cases hb : (firstMax (formatScores (pySlice content 5000))).2 > 0
    · rw [if_pos hb]
      exact formatScores_keys _ _ (firstMax_mem _ (formatScores_ne_nil _))
    · rw [if_neg hb]
      decide
  · intro content hb
    unfold detect_log_format
    rw [if_pos hb]
  · intro content hb
    unfold detect_log_format
    rw [if_neg (by rw [hb]; exact lt_irrefl 0)]
  · intro s hg
    unfold formatScores
    rw [if_neg (by rw [hg]; exact Bool.false_ne_true)]
    simp
  · intro s hg
    unfold formatScores
    rw [if_pos hg]
    simp
  · intro l hl
    rcases l with _ | ⟨h0, t0⟩
    · exact absurd rfl hl
    refine ⟨firstMax_mem _ hl, ?_, ?_⟩
    · intro x hx
      show x.2 ≤ (t0.foldl pickBest h0).2
      rcases List.mem_cons.mp hx with h | h
      · rw [h]; exact (foldl_pickBest_ge t0 h0).1
      · exact (foldl_pickBest_ge t0 h0).2 x h
    · show ∃ pre post, h0 :: t0 = pre ++ (t0.foldl pickBest h0) :: post ∧
        ∀ y ∈ pre, y.2 < (t0.foldl pickBest h0).2
      rcases foldl_pickBest_first t0 h0 with h | ⟨hlt, pre, post, heq, hpre⟩
      · refine ⟨[], t0, ?_, by simp⟩
        rw [h]
        rfl
      · refine ⟨h0 :: pre, post,
          by rw [List.cons_append]; exact congrArg (List.cons h0) heq, ?_⟩
        intro y hy
        rcases List.mem_cons.mp hy with h | h
        · rw [h]; exact hlt
        · exact hpre y h

/-- A sample that is pure JSON lines (the guard holds). -/
def c6Json : String := "\x7b\"a\": 1\x7d\n\x7b\"a\": 2\x7d"

set_option maxHeartbeats 1000000 in
/-- C6 witness: the amended properties applied at concrete samples — on a
pure-JSON sample the guard holds, json is scored, its score 2 is the
strict maximum, and detection returns `"json"`. -/
theorem C6_detect_scoring_and_totality_witness :
    detect_log_format c6Json ∈ formatIds ∧
    ("json", jsonScore c6Json) ∈ formatScores c6Json ∧
    detect_log_format c6Json = (firstMax (formatScores (pySlice c6Json 5000))).1 ∧
    "json" ∉ (formatScores c6Cex).map Prod.fst :=
  ⟨C6_detect_scoring_and_totality.1 c6Json,
   C6_detect_scoring_and_totality.2.2.2.2.1 c6Json rfl,
   C6_detect_scoring_and_totality.2.1 c6Json (by decide),
   C6_detect_scoring_and_totality.2.2.2.1 c6Cex rfl⟩

end LogProc

namespace LogProc

theorem dictGet_eq_none (d : List (String × JValue)) (k : String)
    (h : k ∉ d.map Prod.fst) : dictGet d k = none := by
  induction d with
  | nil => rfl
  | cons hd tl ih =>
    obtain ⟨k', v'⟩ := hd
    have hne : k ≠ k' := by
      intro he
      exact h (by rw [he]; exact List.mem_map_of_mem _ (List.mem_cons_self _ _))
    show (if k = k' then some v' else dictGet tl k) = none
    rw [if_neg hne]
    exact ih (fun hmem => h (by simp only [List.map_cons]; exact List.mem_cons_of_mem _ hmem))

/-- Lookup default: `d.get(k, dflt)` returns the default when the key is absent. -/
theorem pyGet_of_none (d : List (String × JValue)) (k : String) (dflt : JValue)
    (h : dictGet d k = none) : pyGet d k dflt = dflt := by
  unfold pyGet
  rw [h]
  rfl

/-- A JSON record whose only level-ish key is capitalized `"Level"`. -/
def c7Cex : String := "\x7b\"Level\": \"debug\"\x7d"

/-- C7 counterexample: alias lookup is case-sensitive, not
case-insensitive.  A record with key `"Level"` (capitalized) matches none
of the aliases `level`/`severity`/`log_level`, so the canonical level is
`"UNKNOWN"`, not `"DEBUG"` as case-insensitive matching would give. -/
theorem C7_counterexample :
    (process_json_log c7Cex wNow).map (fun md => dictGet md "level")
      = some (some (.jstr "UNKNOWN")) ∧
    (process_json_log c7Cex wNow).map (fun md => dictGet md "level")
      ≠ some (some (.jstr "DEBUG")) := by
  refine ⟨rfl, ?_⟩
  intro h
  rw [show (process_json_log c7Cex wNow).map (fun md => dictGet md "level")
      = some (some (JValue.jstr "UNKNOWN")) from rfl] at h
  simp at h

/-- C7 (amended): structured-record (json) extraction resolves level,
message, component and timestamp via ordered alias lists where the first
matching alias wins, with keys matched case-sensitively (`dict.get`); the
resolved level value (a string, or the default `"UNKNOWN"` when no alias
is present) is uppercased.  In particular a record with a `severity` key
but no `level` key maps its severity value to the canonical level, and a
record with none of the aliases gets level `"UNKNOWN"`. -/
theorem C7_json_alias_resolution :
    ∀ entry now data md,
      jsonLoads (pyStrip entry) = some (.jobj data) →
      process_json_log entry now = some md →
      (∃ s, jsonLevelAlias data = .jstr s ∧
        dictGet md "level" = some (.jstr (pyUpper s))) ∧
      dictGet md "message" = some (jsonMsgAlias data) ∧
      dictGet md "component" = some (jsonComponentAlias data) ∧
      ((jsonTsAlias data).truthy = true →
        dictGet md "timestamp" = some (jsonTsAlias data)) ∧
      ("level" ∉ data.map Prod.fst → "severity" ∉ data.map Prod.fst →
        "log_level" ∉ data.map Prod.fst →
        dictGet md "level" = some (.jstr "UNKNOWN")) := by
  intro entry now data md hload h
  unfold process_json_log at h
  simp only [hload] at h
  rcases hl : jsonLevelAlias data with _ | _ | _ | _ | _ | lv | _ | _ <;>
    simp only [hl] at h <;> try exact absurd h (by simp)
  rcases hp : jsonPreview (jsonMsgAlias data) with _ | preview
  · simp only [hp] at h
    exact Option.noConfusion h
  · simp only [hp] at h
    rw [Option.some.injEq] at h
    subst h
    refine ⟨⟨lv, rfl, ?_⟩, ?_, ?_, ?_, ?_⟩
    · unfold jsonBuildMetadata
      rw [dictGet_extrasFold]
      · rfl
      · rfl
    · unfold jsonBuildMetadata
      rw [dictGet_extrasFold]
      · rfl
      · rfl
    · unfold jsonBuildMetadata
      rw [dictGet_extrasFold]
      · rfl
      · rfl
    · intro ht
      unfold jsonBuildMetadata
      rw [dictGet_extrasFold]
      · show some (if (jsonTsAlias data).truthy = true then jsonTsAlias data
          else JValue.jstr (jsonParsedTime (jsonTsAlias data) now).isoformat)
          = some (jsonTsAlias data)
        rw [if_pos ht]
      · rfl
    · intro h1 h2 h3
      have : jsonLevelAlias data = .jstr "UNKNOWN" := by
        unfold jsonLevelAlias
        rw [pyGet_of_none _ _ _ (dictGet_eq_none _ _ h1),
            pyGet_of_none _ _ _ (dictGet_eq_none _ _ h2),
            pyGet_of_none _ _ _ (dictGet_eq_none _ _ h3)]
      rw [hl] at this
      injection this with hs
      unfold jsonBuildMetadata
      rw [dictGet_extrasFold]
      · rw [hs]
        rfl
      · rfl

/-- A JSON record with a `severity` key and no `level` key. -/
def c7Entry : String := "\x7b\"severity\": \"info\"\x7d"

/-- The metadata produced for `c7Entry`. -/
def c7Md : Metadata := (process_json_log c7Entry wNow).getD []

/-- C7 witness: alias resolution applied at a concrete record whose only
level alias is `severity`. -/
theorem C7_json_alias_resolution_witness :
    (∃ s, jsonLevelAlias [("severity", JValue.jstr "info")] = .jstr s ∧
      dictGet c7Md "level" = some (.jstr (pyUpper s))) ∧
    dictGet c7Md "message" = some (jsonMsgAlias [("severity", JValue.jstr "info")]) ∧
    dictGet c7Md "component" = some (jsonComponentAlias [("severity", JValue.jstr "info")]) ∧
    ((jsonTsAlias [("severity", JValue.jstr "info")]).truthy = true →
      dictGet c7Md "timestamp" = some (jsonTsAlias [("severity", JValue.jstr "info")])) ∧
    ("level" ∉ [("severity", JValue.jstr "info")].map Prod.fst →
      "severity" ∉ [("severity", JValue.jstr "info")].map Prod.fst →
      "log_level" ∉ [("severity", JValue.jstr "info")].map Prod.fst →
      dictGet c7Md "level" = some (.jstr "UNKNOWN")) :=
  C7_json_alias_resolution c7Entry wNow [("severity", JValue.jstr "info")] c7Md rfl rfl

end LogProc

namespace LogProc

theorem syslogInferTime_spec (ts : String) (now : PyDateTime) (dt : PyDateTime)
    (h : syslogInferTime ts now = some dt) :
    (strptimeSyslog (ts ++ " " ++ toString now.year) = some dt ∧ dt.gtDT now = false) ∨
    (∃ p, strptimeSyslog (ts ++ " " ++ toString now.year) = some p ∧ p.gtDT now = true ∧
      strptimeSyslog (ts ++ " " ++ toString (now.year - 1)) = some dt) := by
  unfold syslogInferTime at h
  rcases hp : strptimeSyslog (ts ++ " " ++ toString now.year) with _ | p
  · simp only [hp] at h
    exact Option.noConfusion h
  · simp only [hp] at h
    by_cases hgt : p.gtDT now = true
    · right
      rw [if_pos hgt] at h
      exact ⟨p, rfl, hgt, h⟩
    · left
      rw [if_neg hgt] at h
      rw [Option.some.injEq] at h
      subst h
      exact ⟨rfl, by simpa using hgt⟩

/-- A syslog entry dated January 1st (no year in the timestamp). -/
def c8Entry : String := "Jan 1 00:00:00 myhost sshd[123]: hello"

/-- C8 counterexample: a timestamp of `Jan 1 00:00:00` processed when the
current date is December 15, 2025 yields the *current* year 2025, not
2024: January 1st of the current year lies in the past, so the
previous-year re-parse never triggers.  The claim's expected year
`current - 1` is refuted. -/
theorem C8_counterexample :
    wNow.year = 2025 ∧ wNow.month = 12 ∧
    (process_syslog c8Entry wNow).map (fun md => dictGet md "year")
      = some (some (.jint 2025)) ∧
    (process_syslog c8Entry wNow).map (fun md => dictGet md "year")
      ≠ some (some (.jint 2024)) := by
  refine ⟨rfl, rfl, rfl, ?_⟩
  intro h
  rw [show (process_syslog c8Entry wNow).map (fun md => dictGet md "year")
      = some (some (JValue.jint 2025)) from rfl] at h
  simp at h

/-- The clock instant January 1, 2026, 00:30. -/
def c8NowJan : PyDateTime := ⟨2026, 1, 1, 0, 30, 0, 0, none⟩

/-- A syslog entry dated December 31st. -/
def c8DecEntry : String := "Dec 31 23:59:59 myhost cron[1]: tick"

/-- C8 (amended): host-process (syslog) extraction infers the missing
year by first parsing the timestamp with the current calendar year and,
only if the resulting instant is strictly in the future relative to now,
re-parsing with the previous year.  In particular `Jan 1 00:00:00`
processed in December keeps the current year (it is in the past), while
`Dec 31 23:59:59` processed on January 1, 2026 is in the future under the
current year and is assigned 2025 — one less than the current year. -/
theorem C8_syslog_year_inference :
    (∀ entry now md, process_syslog entry now = some md →
      ∃ ts dt, dictGet md "timestamp" = some (.jstr ts) ∧
        dictGet md "year" = some (.jint dt.year) ∧
        dictGet md "timestamp_iso" = some (.jstr dt.isoformat) ∧
        ((strptimeSyslog (ts ++ " " ++ toString now.year) = some dt ∧
            dt.gtDT now = false) ∨
         (∃ p, strptimeSyslog (ts ++ " " ++ toString now.year) = some p ∧
            p.gtDT now = true ∧
            strptimeSyslog (ts ++ " " ++ toString (now.year - 1)) = some dt))) ∧
    c8NowJan.year = 2026 ∧
    (process_syslog c8DecEntry c8NowJan).map (fun md => dictGet md "year")
      = some (some (.jint 2025)) := by
  refine ⟨?_, rfl, rfl⟩
  intro entry now md h
  unfold process_syslog at h
  rcases hm : reMatch syslogRegex (pyStrip entry) with _ | st
  · simp [hm] at h
  · simp only [hm] at h
    rcases hp : syslogInferTime ((capGet st "timestamp").getD "") now with _ | parsed
    · simp [hp] at h
    · simp only [hp] at h
      rw [Option.some.injEq] at h
      subst h
      exact ⟨_, parsed, rfl, rfl, rfl, syslogInferTime_spec _ _ _ hp⟩

/-- The metadata produced for the December 31st entry at `c8NowJan`. -/
def c8DecMd : Metadata := (process_syslog c8DecEntry c8NowJan).getD []

/-- C8 witness: the year-inference mechanism applied at the concrete
December 31st entry processed on January 1, 2026. -/
theorem C8_syslog_year_inference_witness :
    ∃ ts dt, dictGet c8DecMd "timestamp" = some (.jstr ts) ∧
      dictGet c8DecMd "year" = some (.jint dt.year) ∧
      dictGet c8DecMd "timestamp_iso" = some (.jstr dt.isoformat) ∧
      ((strptimeSyslog (ts ++ " " ++ toString c8NowJan.year) = some dt ∧
          dt.gtDT c8NowJan = false) ∨
       (∃ p, strptimeSyslog (ts ++ " " ++ toString c8NowJan.year) = some p ∧
          p.gtDT c8NowJan = true ∧
          strptimeSyslog (ts ++ " " ++ toString (c8NowJan.year - 1)) = some dt)) :=
  C8_syslog_year_inference.1 c8DecEntry c8NowJan c8DecMd rfl

end LogProc

namespace LogProc

/-- C9 counterexample: requesting an unregistered format id does not fail
and no `UnknownFormat` error exists anywhere in the pipeline:
`parse_log_entry` with the unregistered id `"bogus"` silently parses the
entry (with the standard grammar) and succeeds. -/
theorem C9_counterexample :
    ("bogus" ∈ formatIds) = False ∧
    (parse_log_entry "2024-01-05 10:00:00 INFO hi" "bogus" wNow).isSome = true := by
  refine ⟨by simp [formatIds], rfl⟩

/-- C9 (amended): an unregistered format id never fails; instead
`parse_log_entry` silently substitutes the `standard` grammar, and
`process_logs` falls back to auto-detection (as it also does for a `None`
or empty format id).  It is the code itself — not the caller reacting to
an error — that performs these fallbacks. -/
theorem C9_unregistered_format_fallback :
    (∀ entry f now, formatIds.contains f = false →
      parse_log_entry entry f now = parse_log_entry entry "standard" now) ∧
    (∀ content f now, (f = "" || !formatIds.contains f) = true →
      process_logs content (some f) now = process_logs content none now) := by
  constructor
  · intro entry f now hf
    unfold parse_log_entry
    rw [hf]
    rfl
  · intro content f now hf
    have hres : resolveFormatId content (some f) = resolveFormatId content none := by
      show (if (f = "" || !formatIds.contains f) = true then detect_log_format content
            else f) = detect_log_format content
      rw [if_pos hf]
    unfold process_logs
    rw [hres]

/-- C9 witness: the fallbacks applied at the unregistered id `"bogus"`. -/
theorem C9_unregistered_format_fallback_witness :
    parse_log_entry "2024-01-05 10:00:00 INFO hi" "bogus" wNow
      = parse_log_entry "2024-01-05 10:00:00 INFO hi" "standard" wNow ∧
    process_logs mixedContent (some "bogus") wNow = process_logs mixedContent none wNow :=
  ⟨C9_unregistered_format_fallback.1 "2024-01-05 10:00:00 INFO hi" "bogus" wNow (by decide),
   C9_unregistered_format_fallback.2 mixedContent "bogus" wNow (by decide)⟩

/-- A JSON entry whose timestamp is present but unparseable, forcing the
`datetime.now()` fallback. -/
def c10Json : String := "\x7b\"timestamp\": \"garbage\", \"message\": \"m\"\x7d"

/-- A second clock instant. -/
def c10Now2 : PyDateTime := ⟨2026, 1, 1, 12, 0, 0, 0, none⟩

/-- The `timestamp_iso` string of the first emitted record. -/
def tsIsoOfFirst (l : List Document) : String :=
  match l with
  | d :: _ =>
    match dictGet d.metadata "timestamp_iso" with
    | some (.jstr s) => s
    | _ => ""
  | [] => ""

/-- C10 counterexample: the pipeline's output is not independent of the
wall clock.  For a JSON entry with an unparseable timestamp the record's
`timestamp_iso` is the current time, so two runs on identical input at
different instants produce different outputs. -/
theorem C10_counterexample :
    wNow ≠ c10Now2 ∧
    tsIsoOfFirst (process_logs c10Json (some "json") wNow) = "2025-12-15T12:00:00" ∧
    tsIsoOfFirst (process_logs c10Json (some "json") c10Now2) = "2026-01-01T12:00:00" ∧
    process_logs c10Json (some "json") wNow ≠ process_logs c10Json (some "json") c10Now2 := by
  refine ⟨by decide, rfl, rfl, ?_⟩
  intro h
  have h2 := congrArg tsIsoOfFirst h
  rw [show tsIsoOfFirst (process_logs c10Json (some "json") wNow)
        = "2025-12-15T12:00:00" from rfl,
      show tsIsoOfFirst (process_logs c10Json (some "json") c10Now2)
        = "2026-01-01T12:00:00" from rfl] at h2
  exact absurd h2 (by decide)

/-- C10 (amended): the pipeline is deterministic as a function of the
input text, the format id and the current clock instant — two runs with
the same three arguments give identical output — and for the `standard`
and `apache` formats the output does not depend on the clock at all.  For
the `json` format (unparseable-timestamp fallback to `datetime.now()`)
and the `syslog` format (year inference against now) the output can
depend on the clock, as the counterexample shows. -/
theorem processorFor_standard (e : String) (n : PyDateTime) :
    processorFor "standard" e n = process_standard_log e := by
  unfold processorFor
  rw [if_pos rfl]

theorem processorFor_apache (e : String) (n : PyDateTime) :
    processorFor "apache" e n = process_apache_log e := by
  unfold processorFor
  rw [if_neg (by decide), if_pos rfl]

theorem parse_log_entry_standard (e : String) (n : PyDateTime) :
    parse_log_entry e "standard" n = (process_standard_log e).map (fun md =>
      { page_content := (dictGet md "message").getD (.jstr (pyStrip e)),
        metadata := md }) := by
  unfold parse_log_entry
  rw [show (if formatIds.contains "standard" = true then "standard" else "standard")
      = "standard" from if_pos (by decide), processorFor_standard]

theorem parse_log_entry_apache (e : String) (n : PyDateTime) :
    parse_log_entry e "apache" n = (process_apache_log e).map (fun md =>
      { page_content := (dictGet md "message").getD (.jstr (pyStrip e)),
        metadata := md }) := by
  unfold parse_log_entry
  rw [show (if formatIds.contains "apache" = true then "apache" else "standard")
      = "apache" from if_pos (by decide), processorFor_apache]

set_option maxHeartbeats 1600000 in
theorem process_logs_clock_free (fid : String) (hne : (fid = "json") = False)
    (hparse : ∀ e now1 now2, parse_log_entry e fid now1 = parse_log_entry e fid now2)
    (hres : ∀ content, resolveFormatId content (some fid) = fid) :
    ∀ content now1 now2, process_logs content (some fid) now1
      = process_logs content (some fid) now2 := by
  intro content now1 now2
  unfold process_logs
  rw [hres content]
  rw [if_neg (by simp [hne]), if_neg (by simp [hne])]
  have hfun : (fun e => if pyStrip e ≠ "" then parse_log_entry e fid now1 else none)
      = (fun e => if pyStrip e ≠ "" then parse_log_entry e fid now2 else none) := by
    funext e
    by_cases hb : pyStrip e ≠ ""
    · rw [if_pos hb, if_pos hb, hparse e now1 now2]
    · rw [if_neg hb, if_neg hb]
  rw [hfun]

theorem C10_determinism :
    (∀ content now1 now2, process_logs content (some "standard") now1
        = process_logs content (some "standard") now2) ∧
    (∀ content now1 now2, process_logs content (some "apache") now1
        = process_logs content (some "apache") now2) ∧
    (∀ content format_id now, process_logs content format_id now
        = process_logs content format_id now) :=
  ⟨process_logs_clock_free "standard" (by simp)
      (fun e n1 n2 => by rw [parse_log_entry_standard, parse_log_entry_standard])
      (fun content => by
        show (if (decide ("standard" = "") || !formatIds.contains "standard") = true
            then detect_log_format content else "standard") = "standard"
        rw [if_neg (by decide)]),
   process_logs_clock_free "apache" (by simp)
      (fun e n1 n2 => by rw [parse_log_entry_apache, parse_log_entry_apache])
      (fun content => by
        show (if (decide ("apache" = "") || !formatIds.contains "apache") = true
            then detect_log_format content else "apache") = "apache"
        rw [if_neg (by decide)]),
   fun _ _ _ => rfl⟩

end LogProc
